import Mathlib

/-!
# Currency exchange-rate cache and conversion (frontend/src/services/currencyService.js)

A shallow embedding of the exchange-rate cache and of the conversion engine, of the
currency registry, of the state of `CurrencyProvider`
(frontend/src/context/CurrencyContext.jsx): selection, preference, staleness, display
rate; of `formatCurrency` (frontend/src/utils/formatters.js) and of `getHealthScore`
(frontend/src/components/FinancialSummary.jsx).

Modelling conventions.

* JavaScript numbers that carry rates are exact rationals; an amount is an exact
  rational or `NaN` (`JSNumber`); timestamps (milliseconds since the epoch) are integers.
* A rates object, and the registry, is an association list of its own properties.
  Both are plain objects, so the expression `obj[code]` follows the prototype chain:
  it is the own property when there is one, else the member of `Object.prototype` of
  that name (`objectPrototypeKeys`), else `undefined`. An inherited member is a
  function or an object: it is truthy, and arithmetic on it gives `NaN`.
* The module variable `exchangeRateCache`, the content of the durable storage key
  `exchangeRateCache`, the provider call log form the explicit state `World`.
* An `async` function is run as one sequential step; exceptions are values of
  `Except JSError`, and the state reached before a `throw` is kept.
* The clock and the two providers are inputs (`Env`).
* Values are typed by what the service reads: a `rates` property is absent, `null` or
  an object with numeric entries; the value parsed from durable storage is `null` or an
  object; infinities do not arise, every division being guarded by a truthiness test
  of the divisor, and `NaN` arises only from arithmetic on an inherited member.
* Failures of `localStorage` itself (quota, access denied) are not modelled.
-/

namespace CurrencyService

/-- A JavaScript object mapping currency codes to numeric rates. -/
abbrev Rates := List (String × ℚ)

/-- The value of a `rates` property: absent (`undefined`), JSON `null`, or an object. -/
inductive RatesValue where
  | undefined
  | null
  | object (m : Rates)
deriving DecidableEq, Repr

/-- An object with the three properties the service reads. For `lastUpdated` and
`baseCurrency`, `none` stands for `null` or an absent property. -/
structure Snapshot where
  rates : RatesValue
  lastUpdated : Option ℤ
  baseCurrency : Option String
deriving DecidableEq, Repr

/-- The value held by the module variable `exchangeRateCache`: an object, or the
JSON value `null` (which line 95 can install from durable storage). -/
inductive CacheValue where
  | null
  | object (s : Snapshot)
deriving DecidableEq, Repr

/-- What `localStorage.getItem('exchangeRateCache')` holds, seen through `JSON.parse`:
nothing (or the empty string), a text `JSON.parse` rejects, or a text that parses. -/
inductive StorageItem where
  | absent
  | unparseable
  | json (v : CacheValue)
deriving DecidableEq, Repr

/-- Exceptions raised inside the service. -/
inductive JSError where
  | typeError
  | axiosError
  | error (msg : String)
deriving DecidableEq, Repr

/-- Outcome of one `axios.get`: the promise rejects (timeout, network error, non-2xx
status), or it resolves with `response.data`, which is falsy (`none`) or an object
whose `rates` property has the given value. -/
inductive Response where
  | failed
  | body (data : Option RatesValue)
deriving DecidableEq, Repr

/-- A provider request, with the base currency it was made for. -/
inductive Call where
  | primary (base : String)
  | fallback (base : String)
deriving DecidableEq, Repr

/-- The inputs the service does not control. `now` is the clock reading taken by
`isCacheValid`, `fetchedAt` the one taken when a fetched snapshot is stored. -/
structure Env where
  primary : String → Response
  fallback : String → Response
  now : ℤ
  fetchedAt : ℤ

/-- The mutable state: the in-memory cache, the durable copy, the provider call log. -/
structure World where
  cache : CacheValue
  storage : StorageItem
  calls : List Call
deriving DecidableEq, Repr

/-- The result of a step: a value or an exception, and the state reached. -/
abbrev Step (α : Type) := Except JSError α × World

/-- The initial value of `exchangeRateCache` (lines 10-14). -/
def exchangeRateCache : CacheValue :=
  .object { rates := .object [], lastUpdated := none, baseCurrency := some "USD" }

/-- Cache duration in milliseconds, 30 minutes (line 17). -/
def CACHE_DURATION : ℤ := 30 * 60 * 1000

/-- Truthiness of a `lastUpdated` value: `null`, an absent property and `0` are falsy. -/
def truthyTime : Option ℤ → Bool
  | none => false
  | some t => t != 0

/-- The property names every plain object inherits from `Object.prototype`. An object
literal, an object built by `JSON.parse` and the `data` of a provider response all have
`Object.prototype` as their prototype, so `obj[key]` finds these names when `obj` has no
own property `key`. -/
def objectPrototypeKeys : List String :=
  ["constructor", "__proto__", "hasOwnProperty", "isPrototypeOf", "propertyIsEnumerable",
   "toLocaleString", "toString", "valueOf", "__defineGetter__", "__defineSetter__",
   "__lookupGetter__", "__lookupSetter__"]

/-- The value of a property read `rates[code]`: `undefined`, a number, or the member of
`Object.prototype` inherited under that name (a function, or the prototype object itself
for `__proto__`). -/
inductive JSValue where
  | undefined
  | number (r : ℚ)
  | inherited (key : String)
deriving DecidableEq, Repr

/-- A JavaScript number as the conversion produces it: a rational, or `NaN`. -/
inductive JSNumber where
  | num (q : ℚ)
  | nan
deriving DecidableEq, Repr

instance : Coe ℚ JSNumber := ⟨JSNumber.num⟩

instance (n : ℕ) [OfNat ℚ n] : OfNat JSNumber n := ⟨JSNumber.num (OfNat.ofNat n)⟩

/-- Truthiness of a looked-up rate: `undefined` and `0` are falsy; a function or an
object is truthy. -/
def truthyRate : JSValue → Bool
  | .undefined => false
  | .number r => r != 0
  | .inherited _ => true

/-- The quotient `x / v`: a function or an object converts to `NaN`, and `NaN`
propagates. A zero divisor never reaches it, the callers test the divisor first. -/
def JSNumber.divide (x : JSNumber) (v : JSValue) : JSNumber :=
  match x, v with
  | .num a, .number r => .num (a / r)
  | _, _ => .nan

/-- The product `x * v`, with the same conversions. -/
def JSNumber.times (x : JSNumber) (v : JSValue) : JSNumber :=
  match x, v with
  | .num a, .number r => .num (a * r)
  | _, _ => .nan

/-- Reading `.lastUpdated` off the cache value; `null` has no properties. -/
def CacheValue.getLastUpdated : CacheValue → Except JSError (Option ℤ)
  | .null => .error .typeError
  | .object s => .ok s.lastUpdated

/-- Reading `.baseCurrency` off the cache value. -/
def CacheValue.getBaseCurrency : CacheValue → Except JSError (Option String)
  | .null => .error .typeError
  | .object s => .ok s.baseCurrency

/-- Reading `.rates` off the cache value. -/
def CacheValue.getRates : CacheValue → Except JSError RatesValue
  | .null => .error .typeError
  | .object s => .ok s.rates

/-- The function `isCacheValid` (lines 48-52), at clock reading `now`. -/
def isCacheValid (cache : CacheValue) (now : ℤ) : Except JSError Bool :=
  match cache.getLastUpdated with
  | .error e => .error e
  | .ok lu =>
    if !truthyTime lu then .ok false
    else
      match lu with
      | some t => .ok (decide (now - t < CACHE_DURATION))
      | none => .ok false

/-- The test of line 142:
`isCacheValid() && exchangeRateCache.baseCurrency === baseCurrency`. -/
def cacheValidFor (cache : CacheValue) (now : ℤ) (baseCurrency : String) :
    Except JSError Bool :=
  match isCacheValid cache now with
  | .error e => .error e
  | .ok false => .ok false
  | .ok true =>
    match cache.getBaseCurrency with
    | .error e => .error e
    | .ok b => .ok (decide (b = some baseCurrency))

/-- The function `getDefaultRates` (lines 110-137). -/
def getDefaultRates : Rates :=
  [("USD", 1), ("EUR", 85 / 100), ("GBP", 73 / 100), ("JPY", 110),
   ("INR", 8434 / 100), ("CAD", 125 / 100), ("AUD", 135 / 100), ("CHF", 92 / 100),
   ("CNY", 71 / 10), ("SEK", 85 / 10), ("NZD", 145 / 100), ("MXN", 205 / 10),
   ("SGD", 135 / 100), ("HKD", 78 / 10), ("NOK", 88 / 10), ("TRY", 275 / 10),
   ("RUB", 75), ("BRL", 52 / 10), ("ZAR", 155 / 10), ("KRW", 1200),
   ("THB", 33), ("PLN", 41 / 10), ("CZK", 22), ("HUF", 350)]

/-- Lines 58-70 of `fetchExchangeRates`: the primary provider, and the fallback
provider when the primary request rejects. The value is `response.data`. -/
def providerAttempt (env : Env) (baseCurrency : String) (w : World) :
    Step (Option RatesValue) :=
  let w1 := { w with calls := w.calls ++ [Call.primary baseCurrency] }
  match env.primary baseCurrency with
  | .body data => (.ok data, w1)
  | .failed =>
    let w2 := { w1 with calls := w1.calls ++ [Call.fallback baseCurrency] }
    match env.fallback baseCurrency with
    | .body data => (.ok data, w2)
    | .failed => (.error .axiosError, w2)

/-- The `try` block of `fetchExchangeRates` (lines 56-86). -/
def fetchTry (env : Env) (baseCurrency : String) (w : World) : Step RatesValue :=
  match providerAttempt env baseCurrency w with
  | (.error e, w1) => (.error e, w1)
  | (.ok (some (.object m)), w1) =>
    let snapshot : CacheValue :=
      .object { rates := .object m, lastUpdated := some env.fetchedAt,
                baseCurrency := some baseCurrency }
    (.ok (.object m), { w1 with cache := snapshot, storage := .json snapshot })
  | (.ok _, w1) => (.error (.error "Invalid response format from exchange rate API"), w1)

/-- The `catch` block of `fetchExchangeRates` (lines 87-106). -/
def fetchCatch (w : World) : Step RatesValue :=
  match w.storage with
  | .absent => (.ok (.object getDefaultRates), w)
  | .unparseable => (.ok (.object getDefaultRates), w)
  | .json parsed =>
    let w1 := { w with cache := parsed }
    match parsed.getRates with
    | .ok r => (.ok r, w1)
    | .error _ => (.ok (.object getDefaultRates), w1)

/-- The function `fetchExchangeRates` (lines 55-107). -/
def fetchExchangeRates (env : Env) (baseCurrency : String) (w : World) : Step RatesValue :=
  match fetchTry env baseCurrency w with
  | (.ok r, w1) => (.ok r, w1)
  | (.error _, w1) => fetchCatch w1

/-- The function `getExchangeRates` (lines 140-148). -/
def getExchangeRates (env : Env) (baseCurrency : String) (w : World) : Step RatesValue :=
  match cacheValidFor w.cache env.now baseCurrency with
  | .error e => (.error e, w)
  | .ok true =>
    match w.cache.getRates with
    | .error e => (.error e, w)
    | .ok r => (.ok r, w)
  | .ok false => fetchExchangeRates env baseCurrency w

/-- Reading `rates[code]`: raises on `undefined` and `null`; on an object it finds the
own property, else the member of `Object.prototype` of that name, else `undefined`. -/
def RatesValue.get (rates : RatesValue) (code : String) : Except JSError JSValue :=
  match rates with
  | .undefined => .error .typeError
  | .null => .error .typeError
  | .object m =>
    match m.lookup code with
    | some r => .ok (.number r)
    | none => if code ∈ objectPrototypeKeys then .ok (.inherited code) else .ok .undefined

/-- Lines 159-167 of `convertCurrency`: the amount in USD. -/
def toUsdAmount (rates : RatesValue) (amount : JSNumber) (fromCurrency : String) :
    Except JSError JSNumber :=
  if fromCurrency ≠ "USD" then
    match rates.get fromCurrency with
    | .error e => .error e
    | .ok fromRate =>
      if !truthyRate fromRate then
        .error (.error ("Exchange rate not found for " ++ fromCurrency))
      else .ok (amount.divide fromRate)
  else .ok amount

/-- Lines 159-179 of `convertCurrency`: the computation over the rates obtained. -/
def convertWith (rates : RatesValue) (amount : JSNumber)
    (fromCurrency toCurrency : String) : Except JSError JSNumber :=
  match toUsdAmount rates amount fromCurrency with
  | .error e => .error e
  | .ok usdAmount =>
    if toCurrency = "USD" then .ok usdAmount
    else
      match rates.get toCurrency with
      | .error e => .error e
      | .ok toRate =>
        if !truthyRate toRate then
          .error (.error ("Exchange rate not found for " ++ toCurrency))
        else .ok (usdAmount.times toRate)

/-- The `try` block of `convertCurrency` (lines 156-179). -/
def convertTry (env : Env) (amount : JSNumber) (fromCurrency toCurrency : String)
    (w : World) : Step JSNumber :=
  match getExchangeRates env "USD" w with
  | (.error e, w1) => (.error e, w1)
  | (.ok rates, w1) => (convertWith rates amount fromCurrency toCurrency, w1)

/-- The function `convertCurrency` (lines 151-185). -/
def convertCurrency (env : Env) (amount : JSNumber) (fromCurrency toCurrency : String)
    (w : World) : Step JSNumber :=
  if fromCurrency = toCurrency then (.ok amount, w)
  else
    match convertTry env amount fromCurrency toCurrency w with
    | (.ok v, w1) => (.ok v, w1)
    | (.error _, w1) => (.ok amount, w1)

/-- The function `refreshExchangeRates` (lines 239-242): the assignment
`exchangeRateCache.lastUpdated = null`, then a fetch. -/
def refreshExchangeRates (env : Env) (baseCurrency : String) (w : World) :
    Step RatesValue :=
  match w.cache with
  | .null => (.error .typeError, w)
  | .object s =>
    fetchExchangeRates env baseCurrency
      { w with cache := .object { s with lastUpdated := none } }

/-! ## The currency registry (currencyService.js, lines 19-45 and 202-215) -/

/-- One entry of `SUPPORTED_CURRENCIES`. -/
structure CurrencyInfo where
  name : String
  symbol : String
  flag : String
deriving DecidableEq, Repr

/-- The table `SUPPORTED_CURRENCIES` (lines 20-45). -/
def SUPPORTED_CURRENCIES : List (String × CurrencyInfo) :=
  [("USD", { name := "US Dollar", symbol := "$", flag := "🇺🇸" }),
   ("EUR", { name := "Euro", symbol := "€", flag := "🇪🇺" }),
   ("GBP", { name := "British Pound", symbol := "£", flag := "🇬🇧" }),
   ("JPY", { name := "Japanese Yen", symbol := "¥", flag := "🇯🇵" }),
   ("INR", { name := "Indian Rupee", symbol := "₹", flag := "🇮🇳" }),
   ("CAD", { name := "Canadian Dollar", symbol := "C$", flag := "🇨🇦" }),
   ("AUD", { name := "Australian Dollar", symbol := "A$", flag := "🇦🇺" }),
   ("CHF", { name := "Swiss Franc", symbol := "CHF", flag := "🇨🇭" }),
   ("CNY", { name := "Chinese Yuan", symbol := "¥", flag := "🇨🇳" }),
   ("SEK", { name := "Swedish Krona", symbol := "kr", flag := "🇸🇪" }),
   ("NZD", { name := "New Zealand Dollar", symbol := "NZ$", flag := "🇳🇿" }),
   ("MXN", { name := "Mexican Peso", symbol := "$", flag := "🇲🇽" }),
   ("SGD", { name := "Singapore Dollar", symbol := "S$", flag := "🇸🇬" }),
   ("HKD", { name := "Hong Kong Dollar", symbol := "HK$", flag := "🇭🇰" }),
   ("NOK", { name := "Norwegian Krone", symbol := "kr", flag := "🇳🇴" }),
   ("TRY", { name := "Turkish Lira", symbol := "₺", flag := "🇹🇷" }),
   ("RUB", { name := "Russian Ruble", symbol := "₽", flag := "🇷🇺" }),
   ("BRL", { name := "Brazilian Real", symbol := "R$", flag := "🇧🇷" }),
   ("ZAR", { name := "South African Rand", symbol := "R", flag := "🇿🇦" }),
   ("KRW", { name := "South Korean Won", symbol := "₩", flag := "🇰🇷" }),
   ("THB", { name := "Thai Baht", symbol := "฿", flag := "🇹🇭" }),
   ("PLN", { name := "Polish Zloty", symbol := "zł", flag := "🇵🇱" }),
   ("CZK", { name := "Czech Koruna", symbol := "Kč", flag := "🇨🇿" }),
   ("HUF", { name := "Hungarian Forint", symbol := "Ft", flag := "🇭🇺" })]

/-- The expression `v || d` for a string `v` that may be `undefined`: the empty string
and `undefined` are falsy. -/
def orDefault (v : Option String) (d : String) : String :=
  match v with
  | some s => if s = "" then d else s
  | none => d

/-- The value of `SUPPORTED_CURRENCIES[code]`: `undefined`, an entry of the table, or
the member of `Object.prototype` inherited under that name. -/
inductive RegistryValue where
  | undefined
  | entry (e : CurrencyInfo)
  | inherited (key : String)
deriving DecidableEq, Repr

/-- The expression `SUPPORTED_CURRENCIES[code]`: the own property, else the member of
`Object.prototype` of that name, else `undefined`. -/
def registryGet (code : String) : RegistryValue :=
  match SUPPORTED_CURRENCIES.lookup code with
  | some e => .entry e
  | none => if code ∈ objectPrototypeKeys then .inherited code else .undefined

/-- Truthiness of `SUPPORTED_CURRENCIES[code]`: only `undefined` is falsy. -/
def RegistryValue.truthy : RegistryValue → Bool
  | .undefined => false
  | .entry _ => true
  | .inherited _ => true

/-- The `name` property of the member of `Object.prototype` found under `key`: the
constructor is the function `Object`, `__proto__` is the prototype object, which has no
`name`, and every other member is a function named like its key. -/
def inheritedName (key : String) : Option String :=
  if key = "constructor" then some "Object"
  else if key = "__proto__" then none
  else some key

/-- The expression `SUPPORTED_CURRENCIES[code]?.symbol`; no member of `Object.prototype`
has a `symbol`. -/
def RegistryValue.symbol : RegistryValue → Option String
  | .entry e => some e.symbol
  | _ => none

/-- The expression `SUPPORTED_CURRENCIES[code]?.name`. -/
def RegistryValue.name : RegistryValue → Option String
  | .entry e => some e.name
  | .inherited key => inheritedName key
  | .undefined => none

/-- The expression `SUPPORTED_CURRENCIES[code]?.flag`; no member of `Object.prototype`
has a `flag`. -/
def RegistryValue.flag : RegistryValue → Option String
  | .entry e => some e.flag
  | _ => none

/-- The function `getCurrencySymbol` (lines 203-205). -/
def getCurrencySymbol (currencyCode : String) : String :=
  orDefault (registryGet currencyCode).symbol currencyCode

/-- The function `getCurrencyName` (lines 208-210). -/
def getCurrencyName (currencyCode : String) : String :=
  orDefault (registryGet currencyCode).name currencyCode

/-- The function `getCurrencyFlag` (lines 213-215). -/
def getCurrencyFlag (currencyCode : String) : String :=
  orDefault (registryGet currencyCode).flag "🌍"

/-! ## The currency context (context/CurrencyContext.jsx)

The React state of `CurrencyProvider` is threaded explicitly, together with the durable
storage key `selectedCurrency`. A state update and the effects it triggers are run as
one step. -/

/-- The state of `CurrencyProvider` (lines 23-27) and the durable key `selectedCurrency`.
`lastUpdated` holds the time of a `Date` object, or `none` for `null`. -/
structure ProviderState where
  selectedCurrency : String
  exchangeRates : RatesValue
  loading : Bool
  error : Option String
  lastUpdated : Option ℤ
  savedCurrency : Option String
deriving DecidableEq, Repr

/-- The initial `useState` values (lines 23-27), next to what durable storage holds. -/
def CurrencyProvider.initialState (saved : Option String) : ProviderState :=
  { selectedCurrency := "USD", exchangeRates := .object [], loading := false,
    error := none, lastUpdated := none, savedCurrency := saved }

/-- The call `setSelectedCurrency(c)` with the effect of lines 42-45, which writes the
selection to durable storage when the selection has changed. -/
def CurrencyProvider.setSelectedCurrency (c : String) (st : ProviderState) : ProviderState :=
  if c = st.selectedCurrency then st
  else { st with selectedCurrency := c, savedCurrency := some c }

/-- The effects of the first render: lines 30-35 read the saved code and schedule the
update, lines 42-45 write the initial selection, then the scheduled update is applied. -/
def CurrencyProvider.mount (saved : Option String) : ProviderState :=
  let st0 := CurrencyProvider.initialState saved
  let st1 := { st0 with savedCurrency := some st0.selectedCurrency }
  match saved with
  | some savedCurrency =>
    if savedCurrency ≠ "" ∧ (registryGet savedCurrency).truthy then
      CurrencyProvider.setSelectedCurrency savedCurrency st1
    else st1
  | none => st1

/-- The function `fetchExchangeRates` of the provider (lines 47-68); `uiNow` is the
time of the `new Date()` of line 60. -/
def CurrencyProvider.fetchExchangeRates (env : Env) (uiNow : ℤ) (forceRefresh : Bool)
    (st : ProviderState) (w : World) : ProviderState × World :=
  let st1 := { st with loading := true, error := none }
  match (if forceRefresh then refreshExchangeRates env "USD" w
         else getExchangeRates env "USD" w) with
  | (.ok rates, w1) =>
    ({ st1 with exchangeRates := rates, lastUpdated := some uiNow, error := none,
                loading := false }, w1)
  | (.error _, w1) =>
    ({ st1 with error := some "Failed to update exchange rates. Using cached rates.",
                loading := false }, w1)

/-- The function `getCurrencyInfo` (lines 149-155): `SUPPORTED_CURRENCIES[code]` when it
is truthy, else the fallback record. -/
def CurrencyProvider.getCurrencyInfo (currencyCode : String) : RegistryValue :=
  match registryGet currencyCode with
  | .undefined => .entry { name := currencyCode, symbol := currencyCode, flag := "🌍" }
  | v => v

/-- The function `changeCurrency` (lines 158-164). -/
def CurrencyProvider.changeCurrency (newCurrency : String) (st : ProviderState) :
    ProviderState :=
  if (registryGet newCurrency).truthy then
    CurrencyProvider.setSelectedCurrency newCurrency st
  else st

/-- The function `areRatesStale` (lines 172-176), at clock reading `now`. -/
def CurrencyProvider.areRatesStale (st : ProviderState) (now : ℤ) : Bool :=
  match st.lastUpdated with
  | none => true
  | some t => decide (now - t > 60 * 60 * 1000)

/-- The function `getSelectedCurrencyRate` (lines 109-114); indexing `exchangeRates`
raises when the state holds `undefined` or `null`. -/
def CurrencyProvider.getSelectedCurrencyRate (st : ProviderState) : Except JSError JSValue :=
  if st.selectedCurrency = "USD" then .ok (.number 1)
  else
    match st.exchangeRates.get st.selectedCurrency with
    | .error e => .error e
    | .ok rate => if truthyRate rate then .ok rate else .ok (.number 1)

/-- Lines 143-144 of `formatCurrencyFromUSD`: the amount `usdAmount * rate` that is
formatted. -/
def CurrencyProvider.convertedAmountFromUSD (st : ProviderState) (usdAmount : JSNumber) :
    Except JSError JSNumber :=
  match CurrencyProvider.getSelectedCurrencyRate st with
  | .error e => .error e
  | .ok rate => .ok (usdAmount.times rate)

/-- The effect of lines 30-35 on its own: read the saved code and select it when it is
a code of the registry. -/
def CurrencyProvider.loadPreference (st : ProviderState) : ProviderState :=
  match st.savedCurrency with
  | some savedCurrency =>
    if savedCurrency ≠ "" ∧ (registryGet savedCurrency).truthy then
      CurrencyProvider.setSelectedCurrency savedCurrency st
    else st
  | none => st

/-- One event of the selection state: a preference load or a `changeCurrency(c)`. -/
inductive SelectionEvent where
  | load
  | change (c : String)
deriving DecidableEq, Repr

/-- The state after one event. -/
def CurrencyProvider.step (st : ProviderState) : SelectionEvent → ProviderState
  | .load => CurrencyProvider.loadPreference st
  | .change c => CurrencyProvider.changeCurrency c st

/-- The state after a sequence of events. -/
def CurrencyProvider.run (events : List SelectionEvent) (st : ProviderState) :
    ProviderState :=
  events.foldl CurrencyProvider.step st

/-! ## Formatting (utils/formatters.js and CurrencyContext.jsx)

The host's `Intl.NumberFormat(...).format` and `Number.prototype.toFixed(2)` are not
part of the repository; they are parameters. A `null` or `undefined` amount is `none`. -/

/-- The host formatting functions: `intlFormat currency x` is
`new Intl.NumberFormat('en-US', ...).format(x)`, which may raise, and `toFixed2 x` is
`x.toFixed(2)`. -/
structure Host where
  intlFormat : String → JSNumber → Except JSError String
  toFixed2 : JSNumber → String

/-- The function `formatCurrency` of utils/formatters.js (lines 4-21). -/
def formatCurrency (host : Host) (amount : Option JSNumber) (currency : String)
    (exchangeRate : ℚ) : String :=
  match amount with
  | none => getCurrencySymbol currency ++ "0.00"
  | some a =>
    let convertedAmount := a.times (.number exchangeRate)
    match host.intlFormat currency convertedAmount with
    | .ok s => s
    | .error _ => getCurrencySymbol currency ++ host.toFixed2 convertedAmount

/-- The function `formatCurrency` of the provider (lines 117-135). -/
def CurrencyProvider.formatCurrency (host : Host) (amount : Option JSNumber)
    (currency : String) : String :=
  match amount with
  | none =>
    let symbol := orDefault (registryGet currency).symbol currency
    symbol ++ "0.00"
  | some a =>
    match host.intlFormat currency a with
    | .ok s => s
    | .error _ =>
      let symbol := orDefault (registryGet currency).symbol currency
      symbol ++ host.toFixed2 a

/-- The function `formatCurrencyFromUSD` (lines 138-146). -/
def CurrencyProvider.formatCurrencyFromUSD (host : Host) (st : ProviderState)
    (usdAmount : Option JSNumber) : Except JSError String :=
  match usdAmount with
  | none => .ok (CurrencyProvider.formatCurrency host (some 0) st.selectedCurrency)
  | some u =>
    match CurrencyProvider.convertedAmountFromUSD st u with
    | .error e => .error e
    | .ok convertedAmount =>
      .ok (CurrencyProvider.formatCurrency host (some convertedAmount) st.selectedCurrency)

/-! ## Cache initialisation (currencyService.js, lines 217-233) -/

/-- The `try` block of `initializeCache` (lines 220-226). -/
def initializeTry (w : World) : Except JSError World :=
  match w.storage with
  | .absent => .ok w
  | .unparseable => .error (.error "SyntaxError")
  | .json parsed =>
    match parsed.getRates with
    | .error e => .error e
    | .ok rates =>
      match parsed.getLastUpdated with
      | .error e => .error e
      | .ok lastUpdated =>
        if (match rates with
            | .object _ => true
            | _ => false) && truthyTime lastUpdated then
          .ok { w with cache := parsed }
        else .ok w

/-- The function `initializeCache` (lines 218-230). -/
def initializeCache (w : World) : World :=
  match initializeTry w with
  | .ok w1 => w1
  | .error _ => w

/-- The state once the module is loaded (lines 10-14 and 233), given what durable
storage holds. -/
def moduleLoad (storage : StorageItem) : World :=
  initializeCache { cache := exchangeRateCache, storage := storage, calls := [] }

/-! ## The financial health score (components/FinancialSummary.jsx, lines 8-28) -/

/-- The fields of `summary` that `getHealthScore` reads. -/
structure Summary where
  totalIncome : ℚ
  totalExpenses : ℚ
  savingsRate : ℚ

/-- The record `getHealthScore` returns. -/
structure HealthScore where
  score : ℕ
  label : String
  color : String
deriving DecidableEq, Repr

/-- The score accumulated by lines 13-21. -/
def healthPoints (summary : Summary) : ℕ :=
  (if summary.totalIncome > summary.totalExpenses then 40 else 0) +
    (if summary.savingsRate ≥ 20 then 60
     else if summary.savingsRate ≥ 10 then 40
     else if summary.savingsRate ≥ 5 then 20
     else 0)

/-- The function `getHealthScore` (lines 8-28). -/
def getHealthScore (summary : Summary) : HealthScore :=
  if summary.totalIncome = 0 then { score := 0, label := "No Data", color := "#95a5a6" }
  else
    let score := healthPoints summary
    if score ≥ 80 then { score := score, label := "Excellent", color := "#27ae60" }
    else if score ≥ 60 then { score := score, label := "Good", color := "#2ecc71" }
    else if score ≥ 40 then { score := score, label := "Fair", color := "#f39c12" }
    else if score ≥ 20 then { score := score, label := "Poor", color := "#e67e22" }
    else { score := score, label := "Critical", color := "#e74c3c" }

/-! ## Concrete environments and states used in the examples -/

/-- A clock reading two seconds after the epoch and two unreachable providers. -/
def envOffline : Env :=
  { primary := fun _ => .failed, fallback := fun _ => .failed, now := 2000, fetchedAt := 2000 }

/-- The primary provider answers with `{EUR: 0.85}` at clock reading 1000 ms. -/
def envOnline : Env :=
  { primary := fun _ => .body (some (.object [("EUR", 85 / 100)])),
    fallback := fun _ => .failed, now := 1000, fetchedAt := 1000 }

/-- A state whose cache holds the USD-based snapshot `{EUR: 0.85}` fetched at 1000 ms. -/
def worldEur : World :=
  { cache := .object { rates := .object [("EUR", 85 / 100)], lastUpdated := some 1000,
                       baseCurrency := some "USD" },
    storage := .absent, calls := [] }

/-- A state whose cache holds the USD-based snapshot `{EUR: 0}` fetched at 1000 ms. -/
def worldZeroRate : World :=
  { cache := .object { rates := .object [("EUR", 0)], lastUpdated := some 1000,
                       baseCurrency := some "USD" },
    storage := .absent, calls := [] }

/-- The state at module load with nothing in durable storage. -/
def worldStart : World :=
  { cache := exchangeRateCache, storage := .absent, calls := [] }

/-- The state at module load when durable storage holds the text `null`. -/
def worldStoredNull : World :=
  { cache := exchangeRateCache, storage := .json .null, calls := [] }

/-- The state at module load when durable storage holds an object with a timestamp
and a base currency but no `rates` (which `initializeCache` does not install). -/
def worldStoredNoRates : World :=
  { cache := exchangeRateCache,
    storage := .json (.object { rates := .undefined, lastUpdated := some 1000,
                                baseCurrency := some "USD" }),
    calls := [] }

/-- The initial cache next to a durable snapshot `{EUR: 0.85}` written at 1000 ms
(durable storage is shared, so another page of the application can have written it). -/
def worldStoredFresh : World :=
  { cache := exchangeRateCache,
    storage := .json (.object { rates := .object [("EUR", 85 / 100)],
                                lastUpdated := some 1000, baseCurrency := some "USD" }),
    calls := [] }

/-- The state after a successful `getExchangeRates('USD')` from `worldStart`. -/
def worldFetched : World :=
  { cache := .object { rates := .object [("EUR", 85 / 100)], lastUpdated := some 1000,
                       baseCurrency := some "USD" },
    storage := .json (.object { rates := .object [("EUR", 85 / 100)],
                                lastUpdated := some 1000, baseCurrency := some "USD" }),
    calls := [.primary "USD"] }

/-- The state `worldFetched` after line 240 of `refreshExchangeRates`. -/
def worldInvalidated : World :=
  { cache := .object { rates := .object [("EUR", 85 / 100)], lastUpdated := none,
                       baseCurrency := some "USD" },
    storage := .json (.object { rates := .object [("EUR", 85 / 100)],
                                lastUpdated := some 1000, baseCurrency := some "USD" }),
    calls := [.primary "USD"] }

/-- The primary provider answers with `{EUR: 0.85}` while the clock reads 0 ms. -/
def envEpoch : Env :=
  { primary := fun _ => .body (some (.object [("EUR", 85 / 100)])),
    fallback := fun _ => .failed, now := 0, fetchedAt := 0 }

/-- The primary request rejects and the fallback provider answers with `{EUR: 0.85}`. -/
def envFallback : Env :=
  { primary := fun _ => .failed,
    fallback := fun _ => .body (some (.object [("EUR", 85 / 100)])),
    now := 1000, fetchedAt := 1000 }

/-- The primary provider answers 2xx with a body that carries no `rates`; the fallback
provider would answer with `{EUR: 0.85}`. -/
def envMalformedPrimary : Env :=
  { primary := fun _ => .body (some .undefined),
    fallback := fun _ => .body (some (.object [("EUR", 85 / 100)])),
    now := 1000, fetchedAt := 1000 }

/-- The primary provider answers with the empty rates object. -/
def envEmptyRates : Env :=
  { primary := fun _ => .body (some (.object [])),
    fallback := fun _ => .failed, now := 1000, fetchedAt := 1000 }

/-- Two unreachable providers, two hours after the fetch of `worldFetched`. -/
def envOfflineLate : Env :=
  { primary := fun _ => .failed, fallback := fun _ => .failed,
    now := 7201000, fetchedAt := 7201000 }

/-- The provider state after the successful fetch of `worldFetched` at 1000 ms. -/
def providerFetched : ProviderState :=
  { selectedCurrency := "USD", exchangeRates := .object [("EUR", 85 / 100)],
    loading := false, error := none, lastUpdated := some 1000,
    savedCurrency := some "USD" }

/-- A stored snapshot whose `lastUpdated` is the zero timestamp. -/
def snapshotEpoch : Snapshot :=
  { rates := .object [("EUR", 85 / 100)], lastUpdated := some 0,
    baseCurrency := some "USD" }

/-- A provider state showing EUR over the rates `{EUR: 0.85}`. -/
def providerEur : ProviderState :=
  { selectedCurrency := "EUR", exchangeRates := .object [("EUR", 85 / 100)],
    loading := false, error := none, lastUpdated := some 1000,
    savedCurrency := some "EUR" }

/-- A sample host: its `Intl.NumberFormat` rejects every currency code, and its
`toFixed(2)` rounds a non-negative amount to cents. -/
def hostSample : Host :=
  { intlFormat := fun _ _ => .error (.error "RangeError"),
    toFixed2 := fun x =>
      match x with
      | .nan => "NaN"
      | .num q =>
        let cents := (Rat.floor (q * 100 + 1 / 2)).toNat
        toString (cents / 100) ++ "." ++ (if cents % 100 < 10 then "0" else "") ++
          toString (cents % 100) }

/-- The state the service is left in by a failed fetch when durable storage holds the
text `null`: line 95 has installed `null` as the cache. -/
def worldNullCache : World :=
  { cache := .null, storage := .json .null,
    calls := [.primary "USD", .fallback "USD"] }

/-- A provider state in which the member name "constructor" is selected, over the rates
`{EUR: 0.85}`; line 32 or line 159 lets that name through. -/
def providerConstructor : ProviderState :=
  { selectedCurrency := "constructor", exchangeRates := .object [("EUR", 85 / 100)],
    loading := false, error := none, lastUpdated := some 1000,
    savedCurrency := some "constructor" }

/-! ## Auxiliary lemmas -/

/-- The quotient of a number by a numeric rate. -/
@[simp]
theorem JSNumber.divide_num (a r : ℚ) :
    (JSNumber.num a).divide (.number r) = JSNumber.num (a / r) := rfl

/-- The product of a number with a numeric rate. -/
@[simp]
theorem JSNumber.times_num (a r : ℚ) :
    (JSNumber.num a).times (.number r) = JSNumber.num (a * r) := rfl

/-- A numeral read as a JavaScript number. -/
theorem JSNumber.ofNat_eq (n : ℕ) [OfNat ℚ n] :
    (OfNat.ofNat n : JSNumber) = JSNumber.num (OfNat.ofNat n) := rfl

/-- Unfolding of `convertCurrency` for two distinct codes, given what the rate
lookup returned. -/
theorem convertCurrency_of_rates (env : Env) (a : JSNumber) (f t : String) (w w1 : World)
    (rates : RatesValue) (hne : f ≠ t)
    (hget : getExchangeRates env "USD" w = (.ok rates, w1)) :
    convertCurrency env a f t w =
      (match convertWith rates a f t with
        | .ok v => .ok v
        | .error _ => .ok a, w1) := by
  unfold convertCurrency convertTry
  rw [if_neg hne, hget]
  dsimp only
  cases h : convertWith rates a f t <;> simp

/-- The cached snapshot of `worldEur` is served at clock reading 2000 ms. -/
theorem getExchangeRates_worldEur :
    getExchangeRates envOffline "USD" worldEur
      = (.ok (.object [("EUR", 85 / 100)]), worldEur) := by
  simp [getExchangeRates, cacheValidFor, isCacheValid, CacheValue.getLastUpdated, truthyTime,
    CacheValue.getBaseCurrency, CacheValue.getRates, worldEur, envOffline, CACHE_DURATION]

/-- The cached snapshot of `worldZeroRate` is served at clock reading 2000 ms. -/
theorem getExchangeRates_worldZeroRate :
    getExchangeRates envOffline "USD" worldZeroRate
      = (.ok (.object [("EUR", 0)]), worldZeroRate) := by
  simp [getExchangeRates, cacheValidFor, isCacheValid, CacheValue.getLastUpdated, truthyTime,
    CacheValue.getBaseCurrency, CacheValue.getRates, worldZeroRate, envOffline, CACHE_DURATION]

/-- The value computed over a rates object in which every rate needed is present
and non-zero. -/
theorem convertWith_known (R : Rates) (a : ℚ) (f t : String)
    (hf : f = "USD" ∨ ∃ rf, R.lookup f = some rf ∧ rf ≠ 0)
    (ht : t = "USD" ∨ ∃ rt, R.lookup t = some rt ∧ rt ≠ 0) :
    convertWith (.object R) a f t =
      .ok ((if f = "USD" then a else a / (R.lookup f).getD 1) *
           (if t = "USD" then 1 else (R.lookup t).getD 1)) := by
  by_cases hfu : f = "USD" <;> by_cases htu : t = "USD"
  · simp [convertWith, toUsdAmount, hfu, htu]
  · rcases ht with h | ⟨rt, hrt, hrt0⟩
    · exact absurd h htu
    · subst hfu
      simp [convertWith, toUsdAmount, RatesValue.get, truthyRate, htu, hrt, hrt0]
  · rcases hf with h | ⟨rf, hrf, hrf0⟩
    · exact absurd h hfu
    · subst htu
      simp [convertWith, toUsdAmount, RatesValue.get, truthyRate, hfu, hrf, hrf0]
  · rcases hf with h | ⟨rf, hrf, hrf0⟩
    · exact absurd h hfu
    · rcases ht with h | ⟨rt, hrt, hrt0⟩
      · exact absurd h htu
      · simp [convertWith, toUsdAmount, RatesValue.get, truthyRate, hfu, htu, hrf, hrf0,
          hrt, hrt0]

/-- A cache that passes the validity test is an object. -/
theorem cacheValidFor_true_object (cache : CacheValue) (now : ℤ) (base : String)
    (h : cacheValidFor cache now base = .ok true) : ∃ s, cache = .object s := by
  cases cache with
  | null => simp [cacheValidFor, isCacheValid, CacheValue.getLastUpdated] at h
  | object s => exact ⟨s, rfl⟩

/-- Whether the `try` block of a fetch succeeds, and with which rates, does not
depend on the state. -/
theorem fetchTry_fst_indep (env : Env) (base : String) (w w' : World) :
    (fetchTry env base w).1 = (fetchTry env base w').1 := by
  unfold fetchTry providerAttempt
  cases hp : env.primary base with
  | body data =>
    rcases data with _ | r
    · rfl
    · cases r <;> rfl
  | failed =>
    cases hf : env.fallback base with
    | failed => rfl
    | body data =>
      rcases data with _ | r
      · rfl
      · cases r <;> rfl

/-- A `try` block that raises leaves the cache and the durable copy as they were. -/
theorem fetchTry_error_frame (env : Env) (base : String) (w : World) (e : JSError)
    (h : (fetchTry env base w).1 = .error e) :
    (fetchTry env base w).2.cache = w.cache ∧
      (fetchTry env base w).2.storage = w.storage := by
  unfold fetchTry providerAttempt at h ⊢
  cases hp : env.primary base with
  | body data =>
    rw [hp] at h
    rcases data with _ | r
    · exact ⟨rfl, rfl⟩
    · cases r
      · exact ⟨rfl, rfl⟩
      · exact ⟨rfl, rfl⟩
      · simp at h
  | failed =>
    rw [hp] at h
    cases hf : env.fallback base with
    | failed => exact ⟨rfl, rfl⟩
    | body data =>
      rw [hf] at h
      rcases data with _ | r
      · exact ⟨rfl, rfl⟩
      · cases r
        · exact ⟨rfl, rfl⟩
        · exact ⟨rfl, rfl⟩
        · simp at h

/-- The `catch` block either installs the parsed durable value as the cache or
leaves the cache as it was. -/
theorem fetchCatch_cache (w : World) :
    (∃ v, w.storage = .json v ∧ (fetchCatch w).2.cache = v) ∨
      (fetchCatch w).2.cache = w.cache := by
  unfold fetchCatch
  cases hs : w.storage with
  | absent => exact Or.inr rfl
  | unparseable => exact Or.inr rfl
  | json v =>
    refine Or.inl ⟨v, rfl, ?_⟩
    cases v <;> rfl

/-- The three ways a fetch can leave the cache: the provider fetch succeeded, the
durable value was installed, or nothing changed. -/
theorem fetchExchangeRates_cache (env : Env) (base : String) (w : World) :
    (∃ r, (fetchTry env base w).1 = .ok r) ∨
    (∃ v, w.storage = .json v ∧ (fetchExchangeRates env base w).2.cache = v) ∨
    (fetchExchangeRates env base w).2.cache = w.cache := by
  rcases hft : fetchTry env base w with ⟨r, w1⟩
  cases r with
  | ok r => exact Or.inl ⟨r, rfl⟩
  | error e =>
    have hfr := fetchTry_error_frame env base w e (by rw [hft])
    rw [hft] at hfr
    have hfe : fetchExchangeRates env base w = fetchCatch w1 := by
      unfold fetchExchangeRates
      rw [hft]
    rw [hfe]
    rcases fetchCatch_cache w1 with ⟨v, hv, hc⟩ | hc
    · exact Or.inr (Or.inl ⟨v, by rw [← hfr.2]; exact hv, hc⟩)
    · exact Or.inr (Or.inr (by rw [hc]; exact hfr.1))

/-- The provider attempt only extends the call log. -/
theorem providerAttempt_world (env : Env) (base : String) (w : World) :
    (providerAttempt env base w).2 =
      { w with calls := w.calls ++
          (if env.primary base = .failed then [Call.primary base, Call.fallback base]
           else [Call.primary base]) } := by
  unfold providerAttempt
  cases hp : env.primary base with
  | body data => simp
  | failed =>
    cases hf : env.fallback base with
    | failed => simp
    | body data => simp

/-- The `catch` block does not touch the call log nor the durable copy. -/
theorem fetchCatch_frame (w : World) :
    (fetchCatch w).2.calls = w.calls ∧ (fetchCatch w).2.storage = w.storage := by
  unfold fetchCatch
  cases hs : w.storage with
  | absent => simp [hs]
  | unparseable => simp [hs]
  | json v => cases v <;> simp [CacheValue.getRates, hs]

/-- The provider calls a fetch makes: the primary provider once, and the fallback
provider once exactly when the primary request rejects. -/
theorem fetchExchangeRates_calls (env : Env) (base : String) (w : World) :
    (fetchExchangeRates env base w).2.calls = w.calls ++
      (if env.primary base = .failed then [Call.primary base, Call.fallback base]
       else [Call.primary base]) := by
  have hp := providerAttempt_world env base w
  unfold fetchExchangeRates fetchTry
  rcases hpa : providerAttempt env base w with ⟨r, w1⟩
  rw [hpa] at hp
  simp only at hp
  cases r with
  | error e =>
    simp only
    rw [(fetchCatch_frame w1).1, hp]
  | ok d =>
    rcases d with _ | rv
    · simp only
      rw [(fetchCatch_frame w1).1, hp]
    · cases rv with
      | undefined =>
        simp only
        rw [(fetchCatch_frame w1).1, hp]
      | null =>
        simp only
        rw [(fetchCatch_frame w1).1, hp]
      | object m =>
        simp only
        rw [hp]

/-- A successful lookup returns an entry of the table. -/
theorem lookup_mem {α : Type} (l : List (String × α)) (k : String) (v : α)
    (h : l.lookup k = some v) : (k, v) ∈ l := by
  induction l with
  | nil => simp [List.lookup] at h
  | cons p l ih =>
    obtain ⟨k', v'⟩ := p
    by_cases hk : k = k'
    · subst hk
      simp [List.lookup] at h
      subst h
      exact List.mem_cons_self _ _
    · have hb : (k == k') = false := by simpa using hk
      simp [List.lookup, hb] at h
      exact List.mem_cons_of_mem _ (ih h)

/-- Every entry of the registry has a non-empty name, symbol and flag. -/
theorem registry_entries_truthy :
    ∀ p ∈ SUPPORTED_CURRENCIES, p.2.name ≠ "" ∧ p.2.symbol ≠ "" ∧ p.2.flag ≠ "" := by
  decide

/-- What a fetch does when the response it uses carries a rates object. -/
theorem fetchExchangeRates_of_rates (env : Env) (base : String) (w : World) (R : Rates)
    (hsucc : env.primary base = .body (some (.object R)) ∨
      (env.primary base = .failed ∧ env.fallback base = .body (some (.object R)))) :
    (fetchExchangeRates env base w).1 = .ok (.object R) ∧
    (fetchExchangeRates env base w).2.cache =
      .object { rates := .object R, lastUpdated := some env.fetchedAt,
                baseCurrency := some base } ∧
    (fetchExchangeRates env base w).2.storage =
      .json (.object { rates := .object R, lastUpdated := some env.fetchedAt,
                       baseCurrency := some base }) := by
  rcases hsucc with hp | ⟨hp, hf⟩
  · simp [fetchExchangeRates, fetchTry, providerAttempt, hp]
  · simp [fetchExchangeRates, fetchTry, providerAttempt, hp, hf]

/-- A failed `try` block hands over to the `catch` block on an unchanged cache and
durable copy. -/
theorem fetchExchangeRates_of_error (env : Env) (base : String) (w : World) (e : JSError)
    (hfail : (fetchTry env base w).1 = .error e) :
    ∃ calls, fetchExchangeRates env base w = fetchCatch { w with calls := calls } := by
  have hfr := fetchTry_error_frame env base w e hfail
  rcases hft : fetchTry env base w with ⟨r, w1⟩
  rw [hft] at hfail hfr
  simp only at hfail hfr
  subst hfail
  refine ⟨w1.calls, ?_⟩
  unfold fetchExchangeRates
  rw [hft]
  simp only
  congr 1
  rcases w1 with ⟨c1, s1, l1⟩
  rcases w with ⟨c, s, l⟩
  simp only at hfr
  simp [hfr.1, hfr.2]

/-- Whenever the primary request rejects (timeout, network error, non-2xx status), the
fallback provider is attempted exactly once, after the primary and with the same base
currency, and if the fallback answers with a rates object those rates are the result of
the fetch. -/
theorem fallback_after_rejection (env : Env) (base : String) (w : World)
    (hprim : env.primary base = .failed) :
    (fetchExchangeRates env base w).2.calls
      = w.calls ++ [Call.primary base, Call.fallback base] ∧
    (∀ R, env.fallback base = .body (some (.object R)) →
      (fetchExchangeRates env base w).1 = .ok (.object R)) := by
  refine ⟨?_, ?_⟩
  · rw [fetchExchangeRates_calls, if_pos hprim]
  · intro R hf
    exact (fetchExchangeRates_of_rates env base w R (Or.inr ⟨hprim, hf⟩)).1

/-- A lookup succeeds exactly for the keys of the table. -/
theorem lookup_ne_none_iff {α : Type} (l : List (String × α)) (k : String) :
    l.lookup k ≠ none ↔ k ∈ l.map Prod.fst := by
  induction l with
  | nil => simp [List.lookup]
  | cons p l ih =>
    obtain ⟨k', v'⟩ := p
    by_cases hk : k = k'
    · subst hk
      simp [List.lookup]
    · have hb : (k == k') = false := by simpa using hk
      simp [List.lookup, hb, hk, ih]

/-- The default table has the keys of the registry, in the same order. -/
theorem getDefaultRates_keys :
    getDefaultRates.map Prod.fst = SUPPORTED_CURRENCIES.map Prod.fst := by
  decide

/-- Every rate of the default table is positive. -/
theorem getDefaultRates_pos : ∀ p ∈ getDefaultRates, 0 < p.2 := by
  intro p hp
  simp only [getDefaultRates, List.mem_cons, List.mem_singleton, List.not_mem_nil,
    or_false] at hp
  rcases hp with h | h | h | h | h | h | h | h | h | h | h | h | h | h | h | h | h | h | h |
    h | h | h | h | h <;> subst h <;> norm_num

/-- Every code of the registry has a non-zero rate in the default table. -/
theorem getDefaultRates_known (c : String) (hc : SUPPORTED_CURRENCIES.lookup c ≠ none) :
    ∃ r, getDefaultRates.lookup c = some r ∧ r ≠ 0 := by
  have hk : c ∈ getDefaultRates.map Prod.fst := by
    rw [getDefaultRates_keys]
    exact (lookup_ne_none_iff _ _).mp hc
  have hne := (lookup_ne_none_iff getDefaultRates c).mpr hk
  cases hl : getDefaultRates.lookup c with
  | none => exact absurd hl hne
  | some r =>
    refine ⟨r, rfl, ?_⟩
    have := getDefaultRates_pos (c, r) (lookup_mem _ _ _ hl)
    exact ne_of_gt this

/-- The value of `convertCurrency` for two distinct codes, given the rates the lookup
returned. -/
theorem convertCurrency_value_of_rates (env : Env) (a : JSNumber) (f t : String)
    (w : World)
    (rates : RatesValue) (hne : f ≠ t)
    (hget : (getExchangeRates env "USD" w).1 = .ok rates) :
    (convertCurrency env a f t w).1 =
      (match convertWith rates a f t with
        | .ok v => .ok v
        | .error _ => .ok a) := by
  have h := convertCurrency_of_rates env a f t w (getExchangeRates env "USD" w).2 rates hne
    (by rw [← hget])
  rw [h]

/-- Module initialisation neither writes durable storage nor calls a provider. -/
theorem initializeCache_frame (w : World) :
    (initializeCache w).storage = w.storage ∧ (initializeCache w).calls = w.calls := by
  unfold initializeCache initializeTry
  cases hs : w.storage with
  | absent => simp [hs]
  | unparseable => simp [hs]
  | json v =>
    cases v with
    | null => simp [CacheValue.getRates, hs]
    | object s =>
      simp only [CacheValue.getRates, CacheValue.getLastUpdated]
      by_cases hc : ((match s.rates with
          | .object _ => true
          | _ => false) && truthyTime s.lastUpdated) = true
      · simp [hc, hs]
      · simp [hc, hs]

/-- Over a rates object the only error of the first hop is the missing source rate. -/
theorem toUsdAmount_error (R : Rates) (a : JSNumber) (f : String) (e : JSError)
    (h : toUsdAmount (.object R) a f = .error e) :
    e = .error ("Exchange rate not found for " ++ f) := by
  unfold toUsdAmount at h
  by_cases hu : f = "USD"
  · simp [hu] at h
  · simp only [ne_eq, hu, not_false_eq_true, if_true, RatesValue.get] at h
    cases hl : R.lookup f with
    | none =>
      by_cases hp : f ∈ objectPrototypeKeys
      · simp [hl, hp, truthyRate] at h
      · simp [hl, hp, truthyRate] at h
        exact h.symm
    | some r =>
      by_cases hr : r = 0
      · simp [hl, truthyRate, hr] at h
        exact h.symm
      · simp [hl, truthyRate, hr] at h

/-- What the `catch` block returns and installs does not depend on the call log. -/
theorem fetchCatch_calls_indep (w : World) (calls : List Call) :
    (fetchCatch { w with calls := calls }).1 = (fetchCatch w).1 ∧
    (fetchCatch { w with calls := calls }).2.cache = (fetchCatch w).2.cache := by
  unfold fetchCatch
  cases hs : w.storage with
  | absent => simp [hs]
  | unparseable => simp [hs]
  | json v => cases v <;> simp [hs, CacheValue.getRates]

/-! ## The conversion engine -/

/-- C1: for every amount, every code (supported or not) and every state,
`convertCurrency(a, c, c)` returns exactly `a`; the state (cache, durable copy and
provider call log) is returned untouched, whatever the clock and the providers are. -/
theorem convertCurrency_same_currency (env : Env) (a : ℚ) (c : String) (w : World) :
    convertCurrency env a c c w = (.ok a, w) := by
  simp [convertCurrency]

/-- C2 (as amended): for distinct codes with `to` other than USD, over a rates object
in which `rates[to]` is present and non-zero (and `rates[from]` is present and non-zero
when `from` is not USD), `convertCurrency(a, from, to)` is `usdAmount * rates[to]`,
where `usdAmount` is `a` for `from = USD` and `a / rates[from]` otherwise. -/
theorem convertCurrency_to_other (env : Env) (a usd rt : ℚ) (f t : String) (w w1 : World)
    (R : Rates) (hne : f ≠ t) (hto : t ≠ "USD")
    (hget : getExchangeRates env "USD" w = (.ok (.object R), w1))
    (hrt : R.lookup t = some rt) (hrt0 : rt ≠ 0)
    (husd : (f = "USD" ∧ usd = a) ∨
      (f ≠ "USD" ∧ ∃ rf, R.lookup f = some rf ∧ rf ≠ 0 ∧ usd = a / rf)) :
    convertCurrency env a f t w = (.ok (usd * rt), w1) := by
  rw [convertCurrency_of_rates env a f t w w1 _ hne hget]
  rcases husd with ⟨hf, rfl⟩ | ⟨hf, rf, hrf, hrf0, rfl⟩
  · simp [convertWith, toUsdAmount, RatesValue.get, truthyRate, hf, hto, hrt, hrt0]
  · simp [convertWith, toUsdAmount, RatesValue.get, truthyRate, hf, hto, hrt, hrt0, hrf, hrf0]

/-- C2, instance: with the snapshot `{EUR: 0.85}`, `convertCurrency(100, "USD", "EUR")`
is 85. -/
theorem convertCurrency_usd_eur_85 :
    convertCurrency envOffline 100 "USD" "EUR" worldEur = (.ok 85, worldEur) := by
  have h := convertCurrency_to_other envOffline 100 100 (85 / 100) "USD" "EUR" worldEur worldEur
    [("EUR", 85 / 100)] (by decide) (by decide) getExchangeRates_worldEur
    (by simp [List.lookup]) (by norm_num) (Or.inl ⟨rfl, rfl⟩)
  norm_num at h
  exact h

/-- C2, counterexample to the claim as stated: over the snapshot `{EUR: 0}` the rate of
EUR is present, yet `convertCurrency(100, "USD", "EUR")` is the original amount 100 and
not `100 * rates["EUR"]`. -/
theorem convertCurrency_zero_target_rate :
    getExchangeRates envOffline "USD" worldZeroRate
        = (.ok (.object [("EUR", 0)]), worldZeroRate) ∧
      List.lookup "EUR" [("EUR", (0 : ℚ))] = some 0 ∧
      convertCurrency envOffline 100 "USD" "EUR" worldZeroRate = (.ok 100, worldZeroRate) ∧
      (convertCurrency envOffline 100 "USD" "EUR" worldZeroRate).1 ≠ .ok ((100 * 0 : ℚ)) := by
  have h : convertCurrency envOffline 100 "USD" "EUR" worldZeroRate
      = (.ok 100, worldZeroRate) := by
    rw [convertCurrency_of_rates envOffline 100 "USD" "EUR" worldZeroRate worldZeroRate _
      (by decide) getExchangeRates_worldZeroRate]
    simp [convertWith, toUsdAmount, RatesValue.get, truthyRate, List.lookup]
  refine ⟨getExchangeRates_worldZeroRate, by simp [List.lookup], h, ?_⟩
  rw [h]
  simp [JSNumber.ofNat_eq]

/-- C3 (as amended): for every code `from` other than USD whose rate is present and
non-zero, `convertCurrency(a, from, "USD")` is `a / rates[from]`. -/
theorem convertCurrency_to_usd (env : Env) (a rf : ℚ) (f : String) (w w1 : World)
    (R : Rates) (hf : f ≠ "USD")
    (hget : getExchangeRates env "USD" w = (.ok (.object R), w1))
    (hrf : R.lookup f = some rf) (hrf0 : rf ≠ 0) :
    convertCurrency env a f "USD" w = (.ok (a / rf), w1) := by
  rw [convertCurrency_of_rates env a f "USD" w w1 _ hf hget]
  simp [convertWith, toUsdAmount, RatesValue.get, truthyRate, hf, hrf, hrf0]

/-- C3, instance: with the snapshot `{EUR: 0.85}`, `convertCurrency(85, "EUR", "USD")`
is 100. -/
theorem convertCurrency_eur_usd_100 :
    convertCurrency envOffline 85 "EUR" "USD" worldEur = (.ok 100, worldEur) := by
  have h := convertCurrency_to_usd envOffline 85 (85 / 100) "EUR" worldEur worldEur
    [("EUR", 85 / 100)] (by decide) getExchangeRates_worldEur
    (by simp [List.lookup]) (by norm_num)
  norm_num at h
  exact h

/-- C3, counterexample to the claim as stated: over the snapshot `{EUR: 0}` the rate of
EUR is present, yet `convertCurrency(85, "EUR", "USD")` is the original amount 85 and
not a quotient by that rate (a quotient by zero is 0 for rationals and `Infinity` in
JavaScript; 85 is neither). -/
theorem convertCurrency_zero_source_rate :
    getExchangeRates envOffline "USD" worldZeroRate
        = (.ok (.object [("EUR", 0)]), worldZeroRate) ∧
      List.lookup "EUR" [("EUR", (0 : ℚ))] = some 0 ∧
      convertCurrency envOffline 85 "EUR" "USD" worldZeroRate = (.ok 85, worldZeroRate) ∧
      (convertCurrency envOffline 85 "EUR" "USD" worldZeroRate).1 ≠ .ok ((85 / 0 : ℚ)) := by
  have h : convertCurrency envOffline 85 "EUR" "USD" worldZeroRate
      = (.ok 85, worldZeroRate) := by
    rw [convertCurrency_of_rates envOffline 85 "EUR" "USD" worldZeroRate worldZeroRate _
      (by decide) getExchangeRates_worldZeroRate]
    simp [convertWith, toUsdAmount, RatesValue.get, truthyRate, List.lookup]
  refine ⟨getExchangeRates_worldZeroRate, by simp [List.lookup], h, ?_⟩
  rw [h]
  simp [JSNumber.ofNat_eq]

/-- C4: for every amount and every pair of codes whose rates are present and non-zero
in the rates object (USD itself needing none), converting from `from` to `to` and
converting the result back, both over that same rates object, returns the amount. -/
theorem convertCurrency_round_trip (env1 env2 : Env) (a : ℚ) (f t : String)
    (w w1 w2 : World) (R : Rates)
    (hget1 : getExchangeRates env1 "USD" w = (.ok (.object R), w1))
    (hget2 : getExchangeRates env2 "USD" w1 = (.ok (.object R), w2))
    (hf : f = "USD" ∨ ∃ rf, R.lookup f = some rf ∧ rf ≠ 0)
    (ht : t = "USD" ∨ ∃ rt, R.lookup t = some rt ∧ rt ≠ 0) :
    ∃ b w', convertCurrency env1 a f t w = (.ok b, w') ∧
      (convertCurrency env2 b t f w').1 = .ok a := by
  by_cases hne : f = t
  · subst hne
    exact ⟨a, w, by simp [convertCurrency], by simp [convertCurrency]⟩
  · have hne' : t ≠ f := fun h => hne h.symm
    refine ⟨(if f = "USD" then a else a / (R.lookup f).getD 1) *
        (if t = "USD" then 1 else (R.lookup t).getD 1), w1, ?_, ?_⟩
    · rw [convertCurrency_of_rates env1 a f t w w1 _ hne hget1, convertWith_known R a f t hf ht]
    · rw [convertCurrency_of_rates env2 _ t f w1 w2 _ hne' hget2,
        convertWith_known R _ t f ht hf]
      by_cases hfu : f = "USD" <;> by_cases htu : t = "USD"
      · exact absurd (hfu.trans htu.symm) hne
      · rcases ht with h | ⟨rt, hrt, hrt0⟩
        · exact absurd h htu
        · simp [hfu, htu, hrt, hrt0]
      · rcases hf with h | ⟨rf, hrf, hrf0⟩
        · exact absurd h hfu
        · simp [hfu, htu, hrf, hrf0]
      · rcases hf with h | ⟨rf, hrf, hrf0⟩
        · exact absurd h hfu
        · rcases ht with h | ⟨rt, hrt, hrt0⟩
          · exact absurd h htu
          · simp [hfu, htu, hrf, hrf0, hrt, hrt0]

/-- C4, instance: 85 EUR to USD and back over the snapshot `{EUR: 0.85}`. -/
theorem convertCurrency_round_trip_eur :
    ∃ b w', convertCurrency envOffline 85 "EUR" "USD" worldEur = (.ok b, w') ∧
      (convertCurrency envOffline b "USD" "EUR" w').1 = .ok 85 :=
  convertCurrency_round_trip envOffline envOffline 85 "EUR" "USD" worldEur worldEur worldEur
    [("EUR", 85 / 100)] getExchangeRates_worldEur getExchangeRates_worldEur
    (Or.inr ⟨85 / 100, by simp [List.lookup], by norm_num⟩) (Or.inl rfl)

/-- For distinct codes, when `rates[from]` is `undefined` (with `from` other than USD) or
`rates[to]` is `undefined` (with `to` other than USD), that is, when the code is neither
an own key of the rates object nor a member name of `Object.prototype`,
`convertCurrency` returns the original amount and does not raise. -/
theorem convertCurrency_undefined_rate (env : Env) (a : ℚ) (f t : String) (w w1 : World)
    (R : Rates) (hne : f ≠ t)
    (hget : getExchangeRates env "USD" w = (.ok (.object R), w1))
    (hmiss : (f ≠ "USD" ∧ R.lookup f = none ∧ f ∉ objectPrototypeKeys) ∨
      (t ≠ "USD" ∧ R.lookup t = none ∧ t ∉ objectPrototypeKeys)) :
    convertCurrency env a f t w = (.ok a, w1) := by
  rw [convertCurrency_of_rates env a f t w w1 _ hne hget]
  rcases hmiss with ⟨hf, hnone, hp⟩ | ⟨ht, hnone, hp⟩
  · simp [convertWith, toUsdAmount, RatesValue.get, truthyRate, hf, hnone, hp]
  · unfold convertWith
    cases h : toUsdAmount (.object R) a f with
    | error e => simp
    | ok usd => simp [RatesValue.get, truthyRate, ht, hnone, hp]

/-- C5, the code at the failing input: the snapshot `{EUR: 0.85}` has no rate for the
code "constructor", yet `rates["constructor"]` finds the function inherited from
`Object.prototype`, the guards of lines 163 and 175 pass, and
`convertCurrency(100, "USD", "constructor")` and `convertCurrency(100, "constructor",
"USD")` return `NaN` instead of the original amount. For a code that is simply absent,
such as GBP, the original amount is returned. -/
theorem convertCurrency_inherited_name :
    List.lookup "constructor" [("EUR", (85 / 100 : ℚ))] = none ∧
    getExchangeRates envOffline "USD" worldEur
      = (.ok (.object [("EUR", 85 / 100)]), worldEur) ∧
    convertCurrency envOffline 100 "USD" "constructor" worldEur = (.ok .nan, worldEur) ∧
    convertCurrency envOffline 100 "constructor" "USD" worldEur = (.ok .nan, worldEur) ∧
    (JSNumber.nan ≠ 100) ∧
    convertCurrency envOffline 100 "USD" "GBP" worldEur = (.ok 100, worldEur) := by
  refine ⟨by simp [List.lookup], getExchangeRates_worldEur, ?_, ?_, ?_, ?_⟩
  · rw [convertCurrency_of_rates envOffline 100 "USD" "constructor" worldEur worldEur _
      (by decide) getExchangeRates_worldEur]
    simp [convertWith, toUsdAmount, RatesValue.get, truthyRate, List.lookup,
      objectPrototypeKeys, JSNumber.times, JSNumber.ofNat_eq]
  · rw [convertCurrency_of_rates envOffline 100 "constructor" "USD" worldEur worldEur _
      (by decide) getExchangeRates_worldEur]
    simp [convertWith, toUsdAmount, RatesValue.get, truthyRate, List.lookup,
      objectPrototypeKeys, JSNumber.divide, JSNumber.ofNat_eq]
  · simp [JSNumber.ofNat_eq]
  · have h := convertCurrency_undefined_rate envOffline 100 "USD" "GBP" worldEur worldEur
      [("EUR", 85 / 100)] (by decide) getExchangeRates_worldEur
      (Or.inr ⟨by decide, by simp [List.lookup], by decide⟩)
    simpa [JSNumber.ofNat_eq] using h

/-- C6: `convertCurrency` never raises: for every amount, pair of codes, state (cache,
durable copy) and provider behaviour it completes with a value; whenever its `try`
block raises, that value is the unconverted amount; in particular this is so when the
cache is `null` and the rate lookup itself raises. -/
theorem convertCurrency_never_raises (env : Env) (a : ℚ) (f t : String) (w : World) :
    (∃ v, (convertCurrency env a f t w).1 = .ok v) ∧
    (∀ e, (convertTry env a f t w).1 = .error e → (convertCurrency env a f t w).1 = .ok a) ∧
    (w.cache = .null → f ≠ t →
      (getExchangeRates env "USD" w).1 = .error .typeError ∧
      convertCurrency env a f t w = (.ok a, w)) := by
  refine ⟨?_, ?_, ?_⟩
  · unfold convertCurrency
    by_cases h : f = t
    · exact ⟨a, by simp [h]⟩
    · rw [if_neg h]
      rcases hc : convertTry env a f t w with ⟨r, w1⟩
      cases r with
      | ok v => exact ⟨v, rfl⟩
      | error e => exact ⟨a, rfl⟩
  · intro e he
    unfold convertCurrency
    by_cases h : f = t
    · simp [h]
    · rw [if_neg h]
      rcases hc : convertTry env a f t w with ⟨r, w1⟩
      rw [hc] at he
      cases r with
      | ok v => simp at he
      | error e => rfl
  · intro hnull hne
    have hget : getExchangeRates env "USD" w = (.error .typeError, w) := by
      simp [getExchangeRates, cacheValidFor, isCacheValid, CacheValue.getLastUpdated, hnull]
    refine ⟨by rw [hget], ?_⟩
    simp [convertCurrency, convertTry, hne, hget]

/-! ## The rate cache -/

/-- C7, the code at the failing inputs: with both providers down and the text `null` in
durable storage, `getExchangeRates("USD")` returns the default table but leaves `null`
in `exchangeRateCache`, so the next `getExchangeRates` and the next
`refreshExchangeRates` raise a TypeError; and with a stored object that has no `rates`,
`getExchangeRates("USD")` returns `undefined`. -/
theorem getExchangeRates_null_storage :
    getExchangeRates envOffline "USD" worldStoredNull
        = (.ok (.object getDefaultRates),
           { cache := .null, storage := .json .null,
             calls := [.primary "USD", .fallback "USD"] }) ∧
      (getExchangeRates envOffline "USD"
          (getExchangeRates envOffline "USD" worldStoredNull).2).1 = .error .typeError ∧
      (refreshExchangeRates envOffline "USD"
          (getExchangeRates envOffline "USD" worldStoredNull).2).1 = .error .typeError ∧
      (getExchangeRates envOffline "USD" worldStoredNoRates).1 = .ok .undefined := by
  have h1 : getExchangeRates envOffline "USD" worldStoredNull
        = (.ok (.object getDefaultRates),
           { cache := .null, storage := .json .null,
             calls := [.primary "USD", .fallback "USD"] }) := by
    simp [getExchangeRates, cacheValidFor, isCacheValid, CacheValue.getLastUpdated, truthyTime,
      worldStoredNull, exchangeRateCache, envOffline, fetchExchangeRates, fetchTry,
      providerAttempt, fetchCatch, CacheValue.getRates]
  refine ⟨h1, ?_, ?_, ?_⟩
  · rw [h1]
    simp [getExchangeRates, cacheValidFor, isCacheValid, CacheValue.getLastUpdated]
  · rw [h1]
    simp [refreshExchangeRates]
  · simp [getExchangeRates, cacheValidFor, isCacheValid, CacheValue.getLastUpdated, truthyTime,
      worldStoredNoRates, exchangeRateCache, envOffline, fetchExchangeRates, fetchTry,
      providerAttempt, fetchCatch, CacheValue.getRates]

/-- C8 (as amended): the validity test of `getExchangeRates(base)` is true if and only
if the cache is an object whose `lastUpdated` is a non-zero timestamp, whose
`baseCurrency` is the requested base, and `now - lastUpdated` is strictly below
1,800,000 ms. -/
theorem cacheValidFor_iff (cache : CacheValue) (now : ℤ) (base : String) :
    cacheValidFor cache now base = .ok true ↔
      ∃ s t, cache = .object s ∧ s.lastUpdated = some t ∧ t ≠ 0 ∧
        s.baseCurrency = some base ∧ now - t < 1800000 := by
  cases cache with
  | null => simp [cacheValidFor, isCacheValid, CacheValue.getLastUpdated]
  | object s =>
    rcases s with ⟨r, lu, b⟩
    cases lu with
    | none => simp [cacheValidFor, isCacheValid, CacheValue.getLastUpdated, truthyTime]
    | some t =>
      by_cases ht : t = 0
      · simp [cacheValidFor, isCacheValid, CacheValue.getLastUpdated, truthyTime, ht]
      · by_cases hlt : now - t < CACHE_DURATION
        · have hlt' : now - t < 1800000 := by simpa [CACHE_DURATION] using hlt
          simp [cacheValidFor, isCacheValid, CacheValue.getLastUpdated, truthyTime, ht, hlt,
            CacheValue.getBaseCurrency, hlt']
        · have hlt' : ¬ now - t < 1800000 := by simpa [CACHE_DURATION] using hlt
          simp [cacheValidFor, isCacheValid, CacheValue.getLastUpdated, truthyTime, ht, hlt,
            hlt']

/-- C8, counterexample to the claim as stated: a snapshot whose `lastUpdated` is set to
the timestamp 0 and whose base is USD, read at clock 1000 ms, has `lastUpdated` set, the
requested base and an age below 30 minutes, yet the validity test is false. -/
theorem cacheValidFor_zero_timestamp :
    cacheValidFor (.object { rates := .object [], lastUpdated := some 0,
                             baseCurrency := some "USD" }) 1000 "USD" = .ok false ∧
      (some (0 : ℤ)).isSome = true ∧ (1000 : ℤ) - 0 < 30 * 60 * 1000 := by
  refine ⟨?_, rfl, by norm_num⟩
  simp [cacheValidFor, isCacheValid, CacheValue.getLastUpdated, truthyTime]

/-- C9 (as amended): the initial cache is invalid at every time and for every base; and
whenever a fetch, a `getExchangeRates` or a `refreshExchangeRates` takes the cache from
not valid to valid (same base, same observation time), either the provider fetch of that
step succeeded or the step installed the parsed durable-storage value as the cache. -/
theorem cache_valid_only_by_fetch_or_restore (env : Env) (base : String) (w : World)
    (t : ℤ) (b : String) (op : Env → String → World → Step RatesValue)
    (hop : op = fetchExchangeRates ∨ op = getExchangeRates ∨ op = refreshExchangeRates)
    (hbefore : cacheValidFor w.cache t b ≠ .ok true)
    (hafter : cacheValidFor (op env base w).2.cache t b = .ok true) :
    cacheValidFor exchangeRateCache t b = .ok false ∧
      ((∃ r, (fetchTry env base w).1 = .ok r) ∨
       (∃ v, w.storage = .json v ∧ (op env base w).2.cache = v)) := by
  refine ⟨by simp [cacheValidFor, isCacheValid, CacheValue.getLastUpdated, truthyTime,
    exchangeRateCache], ?_⟩
  rcases hop with rfl | rfl | rfl
  · rcases fetchExchangeRates_cache env base w with h | h | h
    · exact Or.inl h
    · exact Or.inr h
    · rw [h] at hafter
      exact absurd hafter hbefore
  · have hget : getExchangeRates env base w = fetchExchangeRates env base w ∨
        (getExchangeRates env base w).2 = w := by
      unfold getExchangeRates
      cases hv : cacheValidFor w.cache env.now base with
      | error e => exact Or.inr rfl
      | ok v =>
        cases v with
        | false => exact Or.inl rfl
        | true =>
          right
          cases w.cache.getRates <;> rfl
    rcases hget with hget | hget
    · rw [hget] at hafter ⊢
      rcases fetchExchangeRates_cache env base w with h | h | h
      · exact Or.inl h
      · exact Or.inr h
      · rw [h] at hafter
        exact absurd hafter hbefore
    · rw [hget] at hafter
      exact absurd hafter hbefore
  · unfold refreshExchangeRates at hafter ⊢
    cases hc : w.cache with
    | null =>
      rw [hc] at hafter
      simp only at hafter
      rw [hc] at hafter
      simp [cacheValidFor, isCacheValid, CacheValue.getLastUpdated] at hafter
    | object s =>
      rw [hc] at hafter
      simp only at hafter ⊢
      rcases fetchExchangeRates_cache env base
          { w with cache := .object { s with lastUpdated := none } } with h | h | h
      · obtain ⟨r, hr⟩ := h
        exact Or.inl ⟨r, by rw [fetchTry_fst_indep env base w _]; exact hr⟩
      · exact Or.inr h
      · rw [h] at hafter
        simp [cacheValidFor, isCacheValid, CacheValue.getLastUpdated, truthyTime] at hafter

/-- C9, instance: from the initial state, a `getExchangeRates("USD")` whose primary
provider answers makes the cache valid, and it is the provider fetch that succeeded. -/
theorem cache_valid_after_first_fetch :
    cacheValidFor exchangeRateCache 1500 "USD" = .ok false ∧
      ((∃ r, (fetchTry envOnline "USD" worldStart).1 = .ok r) ∨
       (∃ v, worldStart.storage = .json v ∧
          (getExchangeRates envOnline "USD" worldStart).2.cache = v)) :=
  cache_valid_only_by_fetch_or_restore envOnline "USD" worldStart 1500 "USD" getExchangeRates
    (Or.inr (Or.inl rfl))
    (by simp [cacheValidFor, isCacheValid, CacheValue.getLastUpdated, truthyTime, worldStart,
      exchangeRateCache])
    (by simp [getExchangeRates, cacheValidFor, isCacheValid, CacheValue.getLastUpdated,
      truthyTime, worldStart, exchangeRateCache, envOnline, fetchExchangeRates, fetchTry,
      providerAttempt, CacheValue.getBaseCurrency, CACHE_DURATION])

/-- C9, counterexample to the claim as stated. After a successful
`getExchangeRates("USD")` at 1000 ms, `refreshExchangeRates("USD")` first invalidates the
cache; its fetch then fails on both providers and falls back to the durable snapshot,
and the cache is valid again at 2000 ms. Likewise, with the initial cache next to a
durable snapshot written at 1000 ms, a `getExchangeRates("USD")` whose fetch fails on
both providers turns the invalid initial cache into a valid one. -/
theorem failed_fetch_makes_cache_valid :
    getExchangeRates envOnline "USD" worldStart
        = (.ok (.object [("EUR", 85 / 100)]), worldFetched) ∧
      refreshExchangeRates envOffline "USD" worldFetched
        = fetchExchangeRates envOffline "USD" worldInvalidated ∧
      cacheValidFor worldInvalidated.cache 2000 "USD" = .ok false ∧
      (fetchTry envOffline "USD" worldInvalidated).1 = .error .axiosError ∧
      cacheValidFor (fetchExchangeRates envOffline "USD" worldInvalidated).2.cache 2000 "USD"
        = .ok true ∧
      cacheValidFor worldStoredFresh.cache 2000 "USD" = .ok false ∧
      (fetchTry envOffline "USD" worldStoredFresh).1 = .error .axiosError ∧
      cacheValidFor (getExchangeRates envOffline "USD" worldStoredFresh).2.cache 2000 "USD"
        = .ok true := by
  refine ⟨?_, ?_, ?_, ?_, ?_, ?_, ?_, ?_⟩
  · simp [getExchangeRates, cacheValidFor, isCacheValid, CacheValue.getLastUpdated,
      truthyTime, worldStart, exchangeRateCache, envOnline, fetchExchangeRates, fetchTry,
      providerAttempt, worldFetched]
  · rfl
  · simp [cacheValidFor, isCacheValid, CacheValue.getLastUpdated, truthyTime,
      worldInvalidated]
  · simp [fetchTry, providerAttempt, envOffline]
  · simp [cacheValidFor, isCacheValid, CacheValue.getLastUpdated, truthyTime,
      worldInvalidated, envOffline, fetchExchangeRates, fetchTry, providerAttempt, fetchCatch,
      CacheValue.getRates, CacheValue.getBaseCurrency, CACHE_DURATION]
  · simp [cacheValidFor, isCacheValid, CacheValue.getLastUpdated, truthyTime,
      worldStoredFresh, exchangeRateCache]
  · simp [fetchTry, providerAttempt, envOffline]
  · simp [getExchangeRates, cacheValidFor, isCacheValid, CacheValue.getLastUpdated,
      truthyTime, worldStoredFresh, exchangeRateCache, envOffline, fetchExchangeRates,
      fetchTry, providerAttempt, fetchCatch, CacheValue.getRates, CacheValue.getBaseCurrency,
      CACHE_DURATION]

/-- C10: when the cache is valid for the requested base, `getExchangeRates(base)`
returns exactly the cached snapshot's rates and returns the state as it was: no
provider call is logged, the in-memory cache and the durable copy are unchanged. -/
theorem getExchangeRates_valid_cache (env : Env) (base : String) (w : World)
    (hvalid : cacheValidFor w.cache env.now base = .ok true) :
    ∃ s, w.cache = .object s ∧ getExchangeRates env base w = (.ok s.rates, w) := by
  obtain ⟨s, hs⟩ := cacheValidFor_true_object w.cache env.now base hvalid
  refine ⟨s, hs, ?_⟩
  unfold getExchangeRates
  rw [hvalid]
  simp [hs, CacheValue.getRates]

/-- C10, instance: the cached snapshot `{EUR: 0.85}` fetched at 1000 ms is served at
2000 ms. -/
theorem getExchangeRates_valid_cache_eur :
    ∃ s, worldEur.cache = .object s ∧
      getExchangeRates envOffline "USD" worldEur = (.ok s.rates, worldEur) :=
  getExchangeRates_valid_cache envOffline "USD" worldEur (by
    simp [cacheValidFor, isCacheValid, CacheValue.getLastUpdated, truthyTime,
      CacheValue.getBaseCurrency, worldEur, envOffline, CACHE_DURATION])

/-! ## Fetching, fallbacks and refresh -/

/-- C11 (as amended): when the fetch for `base` succeeds with rates `R` at time `t`, the
in-memory cache becomes `{rates: R, lastUpdated: t, baseCurrency: base}`, the durable
copy is that same snapshot, and `R` is returned; when `t` is not the zero timestamp the
cache is afterwards valid for `base`, at every clock reading less than 30 minutes
past `t`. -/
theorem fetchExchangeRates_success (env : Env) (base : String) (w : World) (R : Rates)
    (hsucc : env.primary base = .body (some (.object R)) ∨
      (env.primary base = .failed ∧ env.fallback base = .body (some (.object R)))) :
    (fetchExchangeRates env base w).1 = .ok (.object R) ∧
    (fetchExchangeRates env base w).2.cache =
      .object { rates := .object R, lastUpdated := some env.fetchedAt,
                baseCurrency := some base } ∧
    (fetchExchangeRates env base w).2.storage =
      .json (.object { rates := .object R, lastUpdated := some env.fetchedAt,
                       baseCurrency := some base }) ∧
    (env.fetchedAt ≠ 0 → ∀ now, now - env.fetchedAt < 1800000 →
      cacheValidFor (fetchExchangeRates env base w).2.cache now base = .ok true) := by
  obtain ⟨h1, h2, h3⟩ := fetchExchangeRates_of_rates env base w R hsucc
  refine ⟨h1, h2, h3, ?_⟩
  intro ht now hnow
  rw [h2]
  simp [cacheValidFor, isCacheValid, CacheValue.getLastUpdated, truthyTime, ht,
    CacheValue.getBaseCurrency, CACHE_DURATION, hnow]

/-- C11, instance: the first fetch from the initial state, answered by the primary
provider at 1000 ms; the cache is valid for USD at 2000 ms. -/
theorem fetchExchangeRates_success_first :
    (fetchExchangeRates envOnline "USD" worldStart).1 = .ok (.object [("EUR", 85 / 100)]) ∧
    (fetchExchangeRates envOnline "USD" worldStart).2.cache =
      .object { rates := .object [("EUR", 85 / 100)], lastUpdated := some 1000,
                baseCurrency := some "USD" } ∧
    (fetchExchangeRates envOnline "USD" worldStart).2.storage =
      .json (.object { rates := .object [("EUR", 85 / 100)], lastUpdated := some 1000,
                       baseCurrency := some "USD" }) ∧
    cacheValidFor (fetchExchangeRates envOnline "USD" worldStart).2.cache 2000 "USD"
      = .ok true := by
  have h := fetchExchangeRates_success envOnline "USD" worldStart [("EUR", 85 / 100)]
    (Or.inl rfl)
  exact ⟨h.1, h.2.1, h.2.2.1, h.2.2.2 (by decide) 2000 (by decide)⟩

/-- C11, counterexample to the claim as stated: a fetch that succeeds while the clock
reads 0 ms stores `lastUpdated: 0`, and the cache is then not valid for the base, neither
at that instant nor one second later. -/
theorem fetchExchangeRates_success_at_epoch :
    (fetchExchangeRates envEpoch "USD" worldStart).1 = .ok (.object [("EUR", 85 / 100)]) ∧
    (fetchExchangeRates envEpoch "USD" worldStart).2.cache =
      .object { rates := .object [("EUR", 85 / 100)], lastUpdated := some 0,
                baseCurrency := some "USD" } ∧
    cacheValidFor (fetchExchangeRates envEpoch "USD" worldStart).2.cache 0 "USD"
      = .ok false ∧
    cacheValidFor (fetchExchangeRates envEpoch "USD" worldStart).2.cache 1000 "USD"
      = .ok false := by
  obtain ⟨h1, h2, -⟩ := fetchExchangeRates_of_rates envEpoch "USD" worldStart
    [("EUR", 85 / 100)] (Or.inl rfl)
  refine ⟨h1, h2, ?_, ?_⟩
  · rw [h2]
    simp [cacheValidFor, isCacheValid, CacheValue.getLastUpdated, truthyTime, envEpoch]
  · rw [h2]
    simp [cacheValidFor, isCacheValid, CacheValue.getLastUpdated, truthyTime, envEpoch]

/-- C12: when the fetch fails, the result is the rates of the durable snapshot when
durable storage holds a parseable snapshot object, and the default table when durable
storage is empty or unparseable; in every case a value is returned, nothing is
raised. -/
theorem fetchExchangeRates_failure_order (env : Env) (base : String) (w : World)
    (e : JSError) (hfail : (fetchTry env base w).1 = .error e) :
    (∀ s, w.storage = .json (.object s) →
      (fetchExchangeRates env base w).1 = .ok s.rates) ∧
    (w.storage = .absent ∨ w.storage = .unparseable →
      (fetchExchangeRates env base w).1 = .ok (.object getDefaultRates)) ∧
    (∃ r, (fetchExchangeRates env base w).1 = .ok r) := by
  obtain ⟨calls, hfe⟩ := fetchExchangeRates_of_error env base w e hfail
  rw [hfe]
  refine ⟨?_, ?_, ?_⟩
  · intro s hs
    simp [fetchCatch, hs, CacheValue.getRates]
  · rintro (hs | hs) <;> simp [fetchCatch, hs]
  · unfold fetchCatch
    cases hs : w.storage with
    | absent => exact ⟨_, rfl⟩
    | unparseable => exact ⟨_, rfl⟩
    | json v => cases v <;> exact ⟨_, rfl⟩

/-- C12, instance: both providers down and durable storage holding the snapshot
`{EUR: 0.85}`: the stored rates are returned, not the default table. -/
theorem fetchExchangeRates_failure_order_stored :
    (fetchExchangeRates envOffline "USD" worldStoredFresh).1
      = .ok (.object [("EUR", 85 / 100)]) :=
  (fetchExchangeRates_failure_order envOffline "USD" worldStoredFresh .axiosError
    (by simp [fetchTry, providerAttempt, envOffline])).1 _ rfl

/-- C13, the code at the failing input. Two hours after the successful fetch of 1000 ms
the rates are stale; a `getExchangeRates` through the provider then fails on both
providers and is served from the durable snapshot, whose timestamp in the service cache
stays 1000 ms, but line 60 of the provider sets its `lastUpdated` to the time of the
failed attempt and `areRatesStale` turns false. The same happens from the initial
provider state when the default table is served. -/
theorem areRatesStale_after_failed_fetch :
    CurrencyProvider.areRatesStale providerFetched 7201000 = true ∧
    (fetchTry envOfflineLate "USD" worldFetched).1 = .error .axiosError ∧
    (CurrencyProvider.fetchExchangeRates envOfflineLate 7201000 false providerFetched
        worldFetched).2.cache = worldFetched.cache ∧
    (CurrencyProvider.fetchExchangeRates envOfflineLate 7201000 false providerFetched
        worldFetched).1.lastUpdated = some 7201000 ∧
    CurrencyProvider.areRatesStale
      (CurrencyProvider.fetchExchangeRates envOfflineLate 7201000 false providerFetched
        worldFetched).1 7201000 = false ∧
    CurrencyProvider.areRatesStale (CurrencyProvider.initialState none) 2000 = true ∧
    (CurrencyProvider.fetchExchangeRates envOffline 2000 false
        (CurrencyProvider.initialState none) worldStart).1.exchangeRates
      = .object getDefaultRates ∧
    CurrencyProvider.areRatesStale
      (CurrencyProvider.fetchExchangeRates envOffline 2000 false
        (CurrencyProvider.initialState none) worldStart).1 2000 = false := by
  have hget : getExchangeRates envOfflineLate "USD" worldFetched
      = (.ok (.object [("EUR", 85 / 100)]),
         { worldFetched with calls := [.primary "USD", .primary "USD", .fallback "USD"] }) := by
    simp [getExchangeRates, cacheValidFor, isCacheValid, CacheValue.getLastUpdated, truthyTime,
      worldFetched, envOfflineLate, CACHE_DURATION, fetchExchangeRates, fetchTry,
      providerAttempt, fetchCatch, CacheValue.getRates]
  have hget0 : getExchangeRates envOffline "USD" worldStart
      = (.ok (.object getDefaultRates),
         { worldStart with calls := [.primary "USD", .fallback "USD"] }) := by
    simp [getExchangeRates, cacheValidFor, isCacheValid, CacheValue.getLastUpdated, truthyTime,
      worldStart, exchangeRateCache, envOffline, fetchExchangeRates, fetchTry,
      providerAttempt, fetchCatch]
  refine ⟨?_, ?_, ?_, ?_, ?_, ?_, ?_, ?_⟩
  · simp [CurrencyProvider.areRatesStale, providerFetched]
  · simp [fetchTry, providerAttempt, envOfflineLate]
  · simp [CurrencyProvider.fetchExchangeRates, hget]
  · simp [CurrencyProvider.fetchExchangeRates, hget]
  · simp [CurrencyProvider.fetchExchangeRates, hget, CurrencyProvider.areRatesStale]
  · simp [CurrencyProvider.areRatesStale, CurrencyProvider.initialState]
  · simp [CurrencyProvider.fetchExchangeRates, hget0]
  · simp [CurrencyProvider.fetchExchangeRates, hget0, CurrencyProvider.areRatesStale]

/-- C14, the code at the failing input: the primary provider answers 2xx with a body
that carries no rates and the fallback provider would answer with `{EUR: 0.85}`; the
fallback provider is not attempted and the fetch returns the default table. When the
primary request rejects instead, the same fallback provider is attempted once and its
rates are the result. -/
theorem no_fallback_after_malformed_body :
    envMalformedPrimary.primary "USD" = .body (some .undefined) ∧
    envMalformedPrimary.fallback "USD" = .body (some (.object [("EUR", 85 / 100)])) ∧
    (fetchExchangeRates envMalformedPrimary "USD" worldStart).2.calls
      = [Call.primary "USD"] ∧
    (fetchExchangeRates envMalformedPrimary "USD" worldStart).1
      = .ok (.object getDefaultRates) ∧
    (fetchExchangeRates envMalformedPrimary "USD" worldStart).1
      ≠ .ok (.object [("EUR", 85 / 100)]) ∧
    (fetchExchangeRates envFallback "USD" worldStart).2.calls
      = [Call.primary "USD", Call.fallback "USD"] ∧
    (fetchExchangeRates envFallback "USD" worldStart).1
      = .ok (.object [("EUR", 85 / 100)]) := by
  have h : fetchExchangeRates envMalformedPrimary "USD" worldStart
      = (.ok (.object getDefaultRates), { worldStart with calls := [.primary "USD"] }) := by
    simp [fetchExchangeRates, fetchTry, providerAttempt, envMalformedPrimary, fetchCatch,
      worldStart]
  have hs := fallback_after_rejection envFallback "USD" worldStart rfl
  refine ⟨rfl, rfl, by rw [h], by rw [h], ?_, hs.1, hs.2 _ rfl⟩
  rw [h]
  simp [getDefaultRates]

/-- C15 (as amended): a provider response is accepted only if it carries a rates
mapping: when the response the fetch uses has no body or a body whose `rates` is missing
or `null`, the `try` block fails with the invalid-format error and the fetch is what the
`catch` block returns on the unchanged cache and durable copy (the durable snapshot,
else the default table). -/
theorem response_without_rates_rejected (env : Env) (base : String) (w : World)
    (d : Option RatesValue)
    (hresp : env.primary base = .body d ∨
      (env.primary base = .failed ∧ env.fallback base = .body d))
    (hd : d = none ∨ d = some .undefined ∨ d = some .null) :
    (fetchTry env base w).1
      = .error (.error "Invalid response format from exchange rate API") ∧
    ∃ calls, fetchExchangeRates env base w = fetchCatch { w with calls := calls } := by
  have hfail : (fetchTry env base w).1
      = .error (.error "Invalid response format from exchange rate API") := by
    rcases hresp with hp | ⟨hp, hf⟩
    · rcases hd with rfl | rfl | rfl <;> simp [fetchTry, providerAttempt, hp]
    · rcases hd with rfl | rfl | rfl <;> simp [fetchTry, providerAttempt, hp, hf]
  exact ⟨hfail, fetchExchangeRates_of_error env base w _ hfail⟩

/-- C15, instance: a 2xx primary response without `rates`, from the initial state with
nothing in durable storage: the default table is returned and the cache is untouched. -/
theorem response_without_rates_rejected_start :
    (fetchTry envMalformedPrimary "USD" worldStart).1
      = .error (.error "Invalid response format from exchange rate API") ∧
    ∃ calls, fetchExchangeRates envMalformedPrimary "USD" worldStart
      = fetchCatch { worldStart with calls := calls } :=
  response_without_rates_rejected envMalformedPrimary "USD" worldStart (some .undefined)
    (Or.inl rfl) (Or.inr (Or.inl rfl))

/-- C15, counterexample to the claim as stated: a response whose rates mapping is empty
is accepted: the fetch succeeds, returns the empty mapping and stores it in the cache and
in the durable copy. -/
theorem empty_rates_accepted :
    envEmptyRates.primary "USD" = .body (some (.object [])) ∧
    (fetchTry envEmptyRates "USD" worldStart).1 = .ok (.object []) ∧
    (fetchExchangeRates envEmptyRates "USD" worldStart).1 = .ok (.object []) ∧
    (fetchExchangeRates envEmptyRates "USD" worldStart).2.cache =
      .object { rates := .object [], lastUpdated := some 1000,
                baseCurrency := some "USD" } ∧
    (fetchExchangeRates envEmptyRates "USD" worldStart).2.storage =
      .json (.object { rates := .object [], lastUpdated := some 1000,
                       baseCurrency := some "USD" }) := by
  obtain ⟨h1, h2, h3⟩ := fetchExchangeRates_of_rates envEmptyRates "USD" worldStart []
    (Or.inl rfl)
  refine ⟨rfl, ?_, h1, h2, h3⟩
  simp [fetchTry, providerAttempt, envEmptyRates]

/-- For every state whose cache is a snapshot object, valid or not,
`refreshExchangeRates(base)` returns exactly what a fetch for `base` returns from the
state in which `lastUpdated` has been set to `null`; that state is valid for no base at
no time, and the primary provider is called (and the fallback provider when the primary
request rejects), so the cached rates are never served through the fast path. -/
theorem refreshExchangeRates_object_cache (env : Env) (base : String) (s : Snapshot)
    (storage : StorageItem) (calls : List Call) :
    refreshExchangeRates env base { cache := .object s, storage := storage, calls := calls }
      = fetchExchangeRates env base
          { cache := .object { s with lastUpdated := none }, storage := storage,
            calls := calls } ∧
    (∀ now b, cacheValidFor (.object { s with lastUpdated := none }) now b = .ok false) ∧
    (refreshExchangeRates env base
        { cache := .object s, storage := storage, calls := calls }).2.calls
      = calls ++ (if env.primary base = .failed then [Call.primary base, Call.fallback base]
                  else [Call.primary base]) := by
  refine ⟨rfl, ?_, ?_⟩
  · intro now b
    simp [cacheValidFor, isCacheValid, CacheValue.getLastUpdated, truthyTime]
  · show (fetchExchangeRates env base _).2.calls = _
    rw [fetchExchangeRates_calls]

/-- C16, the code at the failing input: a failed `getExchangeRates("USD")` with the text
`null` in durable storage leaves `null` as the cache; from that state
`refreshExchangeRates("USD")` raises a TypeError at line 240 and makes no provider
attempt (the state, call log included, is unchanged), although the primary provider
would answer and a fetch from that state returns its rates. From a snapshot cache the
same refresh does reach the provider. -/
theorem refreshExchangeRates_null_cache :
    getExchangeRates envOffline "USD" worldStoredNull
      = (.ok (.object getDefaultRates), worldNullCache) ∧
    worldNullCache.cache = .null ∧
    refreshExchangeRates envOnline "USD" worldNullCache
      = (.error .typeError, worldNullCache) ∧
    (fetchExchangeRates envOnline "USD" worldNullCache).1
      = .ok (.object [("EUR", 85 / 100)]) ∧
    (refreshExchangeRates envOnline "USD" worldFetched).1
      = .ok (.object [("EUR", 85 / 100)]) ∧
    (refreshExchangeRates envOnline "USD" worldFetched).2.calls
      = [.primary "USD", .primary "USD"] := by
  refine ⟨?_, rfl, rfl, ?_, ?_, ?_⟩
  · simp [getExchangeRates, cacheValidFor, isCacheValid, CacheValue.getLastUpdated, truthyTime,
      worldStoredNull, exchangeRateCache, envOffline, fetchExchangeRates, fetchTry,
      providerAttempt, fetchCatch, CacheValue.getRates, worldNullCache]
  · exact (fetchExchangeRates_of_rates envOnline "USD" worldNullCache [("EUR", 85 / 100)]
      (Or.inl rfl)).1
  · simp [refreshExchangeRates, worldFetched, fetchExchangeRates, fetchTry, providerAttempt,
      envOnline]
  · simp [refreshExchangeRates, worldFetched, fetchExchangeRates, fetchTry, providerAttempt,
      envOnline]

/-- C17: `areRatesStale()` is true exactly when `lastUpdated` is `null` or
`now - lastUpdated` is strictly greater than 3,600,000 ms; at exactly 3,600,000 ms it is
false. -/
theorem areRatesStale_iff (st : ProviderState) (now : ℤ) :
    (CurrencyProvider.areRatesStale st now = true ↔
      st.lastUpdated = none ∨ ∃ t, st.lastUpdated = some t ∧ now - t > 3600000) ∧
    (∀ t, st.lastUpdated = some t → now - t = 3600000 →
      CurrencyProvider.areRatesStale st now = false) := by
  unfold CurrencyProvider.areRatesStale
  cases h : st.lastUpdated with
  | none => simp
  | some t =>
    refine ⟨by simp, ?_⟩
    intro t' ht' heq
    simp only [Option.some.injEq] at ht'
    subst ht'
    simp [heq]

/-! ## The currency registry and the selection -/

/-- The value of `SUPPORTED_CURRENCIES[code]` for a code of the table. -/
theorem registryGet_entry (code : String) (e : CurrencyInfo)
    (h : SUPPORTED_CURRENCIES.lookup code = some e) : registryGet code = .entry e := by
  simp [registryGet, h]

/-- The value of `SUPPORTED_CURRENCIES[code]` for a code that is neither in the table
nor a member name of `Object.prototype`. -/
theorem registryGet_undefined (code : String) (h : SUPPORTED_CURRENCIES.lookup code = none)
    (hp : code ∉ objectPrototypeKeys) : registryGet code = .undefined := by
  simp [registryGet, h, hp]

/-- For every code in the registry, `getCurrencyInfo`, `getCurrencySymbol`,
`getCurrencyName` and `getCurrencyFlag` return that entry and its symbol, name and flag;
for every code that is neither in the registry nor a member name of `Object.prototype`
they return the fallback record (name and symbol the code itself, flag the globe
glyph). -/
theorem currency_lookup_own (code : String) :
    (∀ e, SUPPORTED_CURRENCIES.lookup code = some e →
      CurrencyProvider.getCurrencyInfo code = .entry e ∧ getCurrencySymbol code = e.symbol ∧
      getCurrencyName code = e.name ∧ getCurrencyFlag code = e.flag) ∧
    (SUPPORTED_CURRENCIES.lookup code = none → code ∉ objectPrototypeKeys →
      CurrencyProvider.getCurrencyInfo code
        = .entry { name := code, symbol := code, flag := "🌍" } ∧
      getCurrencySymbol code = code ∧ getCurrencyName code = code ∧
      getCurrencyFlag code = "🌍") := by
  refine ⟨?_, ?_⟩
  · intro e he
    obtain ⟨hn, hs, hf⟩ := registry_entries_truthy (code, e) (lookup_mem _ _ _ he)
    simp only at hn hs hf
    simp [CurrencyProvider.getCurrencyInfo, getCurrencySymbol, getCurrencyName,
      getCurrencyFlag, orDefault, registryGet_entry code e he, RegistryValue.symbol,
      RegistryValue.name, RegistryValue.flag, hn, hs, hf]
  · intro hnone hp
    simp [CurrencyProvider.getCurrencyInfo, getCurrencySymbol, getCurrencyName,
      getCurrencyFlag, orDefault, registryGet_undefined code hnone hp, RegistryValue.symbol,
      RegistryValue.name, RegistryValue.flag]

/-- C18, the code at the failing input: "constructor" is not a code of the registry, yet
`SUPPORTED_CURRENCIES["constructor"]` is the function `Object` inherited from
`Object.prototype`: `getCurrencyInfo("constructor")` returns that function and not the
fallback record, and `getCurrencyName("constructor")` returns "Object" and not the code.
For an unknown code such as "ZZZ" the fallback record and the code are returned. -/
theorem currency_lookup_inherited_name :
    SUPPORTED_CURRENCIES.lookup "constructor" = none ∧
    CurrencyProvider.getCurrencyInfo "constructor" = .inherited "constructor" ∧
    CurrencyProvider.getCurrencyInfo "constructor"
      ≠ .entry { name := "constructor", symbol := "constructor", flag := "🌍" } ∧
    getCurrencyName "constructor" = "Object" ∧
    getCurrencySymbol "constructor" = "constructor" ∧
    getCurrencyFlag "constructor" = "🌍" ∧
    CurrencyProvider.getCurrencyInfo "ZZZ"
      = .entry { name := "ZZZ", symbol := "ZZZ", flag := "🌍" } ∧
    getCurrencyName "ZZZ" = "ZZZ" := by
  decide

/-- The function `changeCurrency` on a code that is neither in the registry nor a member
name of `Object.prototype` returns the state as it was; on a code of the registry the
selection becomes that code, and the persisted preference too when the selection
changed. -/
theorem changeCurrency_own (c : String) (st : ProviderState) :
    (SUPPORTED_CURRENCIES.lookup c = none → c ∉ objectPrototypeKeys →
      CurrencyProvider.changeCurrency c st = st) ∧
    (SUPPORTED_CURRENCIES.lookup c ≠ none →
      (CurrencyProvider.changeCurrency c st).selectedCurrency = c ∧
      (c ≠ st.selectedCurrency →
        (CurrencyProvider.changeCurrency c st).savedCurrency = some c)) := by
  refine ⟨?_, ?_⟩
  · intro hnone hp
    simp [CurrencyProvider.changeCurrency, registryGet_undefined c hnone hp,
      RegistryValue.truthy]
  · intro hsome
    have h : (registryGet c).truthy = true := by
      cases hl : SUPPORTED_CURRENCIES.lookup c with
      | none => exact absurd hl hsome
      | some e => simp [registryGet_entry c e hl, RegistryValue.truthy]
    unfold CurrencyProvider.changeCurrency CurrencyProvider.setSelectedCurrency
    rw [if_pos h]
    by_cases hc : c = st.selectedCurrency
    · simp [hc]
    · simp [hc]

/-- C19, the code at the failing input: "constructor" is not a code of the registry, yet
`changeCurrency("constructor")` after the first render selects it and persists it,
because `SUPPORTED_CURRENCIES["constructor"]` is truthy. For an unknown code such as
"ZZZ" the state is unchanged. -/
theorem changeCurrency_inherited_name :
    SUPPORTED_CURRENCIES.lookup "constructor" = none ∧
    (CurrencyProvider.mount none).selectedCurrency = "USD" ∧
    (CurrencyProvider.changeCurrency "constructor"
      (CurrencyProvider.mount none)).selectedCurrency = "constructor" ∧
    (CurrencyProvider.changeCurrency "constructor"
      (CurrencyProvider.mount none)).savedCurrency = some "constructor" ∧
    CurrencyProvider.changeCurrency "ZZZ" (CurrencyProvider.mount none)
      = CurrencyProvider.mount none := by
  decide

/-- After the first render the selection is the saved code when durable storage holds a
code of the registry, and "USD" when durable storage holds nothing or a code that is
neither in the registry nor a member name of `Object.prototype`. -/
theorem mount_own (saved : Option String) :
    (∀ c, saved = some c → SUPPORTED_CURRENCIES.lookup c ≠ none →
      (CurrencyProvider.mount saved).selectedCurrency = c) ∧
    (saved = none → (CurrencyProvider.mount saved).selectedCurrency = "USD") ∧
    (∀ c, saved = some c → SUPPORTED_CURRENCIES.lookup c = none →
      c ∉ objectPrototypeKeys → (CurrencyProvider.mount saved).selectedCurrency = "USD") := by
  refine ⟨?_, ?_, ?_⟩
  · intro c hc hsome
    subst hc
    have h : (registryGet c).truthy = true := by
      cases hl : SUPPORTED_CURRENCIES.lookup c with
      | none => exact absurd hl hsome
      | some e => simp [registryGet_entry c e hl, RegistryValue.truthy]
    have hne : c ≠ "" := by
      intro h0
      subst h0
      exact hsome (by decide)
    unfold CurrencyProvider.mount CurrencyProvider.setSelectedCurrency
    simp only [hne, h, ne_eq, not_false_eq_true, and_self, if_true]
    by_cases hu : c = "USD"
    · simp [hu, CurrencyProvider.initialState]
    · simp [hu, CurrencyProvider.initialState]
  · intro hnone
    subst hnone
    simp [CurrencyProvider.mount, CurrencyProvider.initialState]
  · intro c hc hnone hp
    subst hc
    simp [CurrencyProvider.mount, CurrencyProvider.initialState,
      registryGet_undefined c hnone hp, RegistryValue.truthy]

/-- C20, the code at the failing input: with "constructor" saved in durable storage,
which is not a code of the registry, the first render selects "constructor" instead of
keeping "USD", because `SUPPORTED_CURRENCIES["constructor"]` is truthy (line 32). With
an unknown code such as "ZZZ" saved the selection stays "USD", and a saved "EUR" is
selected. -/
theorem mount_inherited_name :
    SUPPORTED_CURRENCIES.lookup "constructor" = none ∧
    (CurrencyProvider.mount (some "constructor")).selectedCurrency = "constructor" ∧
    (CurrencyProvider.mount (some "constructor")).savedCurrency = some "constructor" ∧
    (CurrencyProvider.mount (some "ZZZ")).selectedCurrency = "USD" ∧
    (CurrencyProvider.mount (some "EUR")).selectedCurrency = "EUR" := by
  decide

/-! ## Formatting, initialisation and the default table -/

/-- C21: for every currency code and every exchange rate, both `formatCurrency`
functions turn a `null` or `undefined` amount into the symbol of the code (the code
itself when it is not in the registry) followed by "0.00", without calling the host
formatter; for USD the result is "$0.00". -/
theorem formatCurrency_null (host : Host) (c : String) (exchangeRate : ℚ) :
    formatCurrency host none c exchangeRate
      = (match SUPPORTED_CURRENCIES.lookup c with
         | some e => e.symbol
         | none => c) ++ "0.00" ∧
    CurrencyProvider.formatCurrency host none c
      = (match SUPPORTED_CURRENCIES.lookup c with
         | some e => e.symbol
         | none => c) ++ "0.00" ∧
    formatCurrency host none "USD" exchangeRate = "$0.00" ∧
    CurrencyProvider.formatCurrency host none "USD" = "$0.00" := by
  have hsym : orDefault (registryGet c).symbol c
      = (match SUPPORTED_CURRENCIES.lookup c with
         | some e => e.symbol
         | none => c) := by
    cases hl : SUPPORTED_CURRENCIES.lookup c with
    | none =>
      by_cases hp : c ∈ objectPrototypeKeys
      · simp [orDefault, registryGet, hl, hp, RegistryValue.symbol]
      · simp [orDefault, registryGet, hl, hp, RegistryValue.symbol]
    | some e =>
      have hs := (registry_entries_truthy (c, e) (lookup_mem _ _ _ hl)).2.1
      simp only at hs
      simp [orDefault, registryGet, hl, RegistryValue.symbol, hs]
  have husd : orDefault (registryGet "USD").symbol "USD" = "$" := by decide
  refine ⟨?_, ?_, ?_, ?_⟩
  · simp only [formatCurrency, getCurrencySymbol]
    rw [hsym]
  · simp only [CurrencyProvider.formatCurrency]
    rw [hsym]
  · simp only [formatCurrency, getCurrencySymbol]
    rw [husd]
    decide
  · simp only [CurrencyProvider.formatCurrency]
    rw [husd]
    decide

/-- C22 (as amended): at module load, if the stored value parses to an object whose
`rates` is present and whose `lastUpdated` is a non-zero timestamp, the initial cache is
that stored snapshot; with no stored value, an unparseable text, a stored `null`, or a
stored object without `rates` or without `lastUpdated`, the cache stays the initial one
(`rates` empty, `lastUpdated` null, base USD). Nothing is raised and durable storage is
not written. -/
theorem moduleLoad_spec (storage : StorageItem) :
    (∀ s R t, storage = .json (.object s) → s.rates = .object R → s.lastUpdated = some t →
      t ≠ 0 → (moduleLoad storage).cache = .object s) ∧
    (storage = .absent ∨ storage = .unparseable ∨ storage = .json .null ∨
      (∃ s, storage = .json (.object s) ∧
        (s.rates = .undefined ∨ s.rates = .null ∨ s.lastUpdated = none)) →
      (moduleLoad storage).cache = exchangeRateCache) ∧
    (moduleLoad storage).storage = storage ∧ (moduleLoad storage).calls = [] := by
  refine ⟨?_, ?_, ?_, ?_⟩
  · intro s R t hs hR ht ht0
    subst hs
    simp [moduleLoad, initializeCache, initializeTry, CacheValue.getRates,
      CacheValue.getLastUpdated, hR, ht, truthyTime, ht0]
  · rintro (h | h | h | ⟨s, h, hs⟩)
    · subst h
      simp [moduleLoad, initializeCache, initializeTry]
    · subst h
      simp [moduleLoad, initializeCache, initializeTry]
    · subst h
      simp [moduleLoad, initializeCache, initializeTry, CacheValue.getRates]
    · subst h
      rcases hs with hs | hs | hs
      · simp [moduleLoad, initializeCache, initializeTry, CacheValue.getRates,
          CacheValue.getLastUpdated, hs]
      · simp [moduleLoad, initializeCache, initializeTry, CacheValue.getRates,
          CacheValue.getLastUpdated, hs]
      · simp [moduleLoad, initializeCache, initializeTry, CacheValue.getRates,
          CacheValue.getLastUpdated, hs, truthyTime]
  · exact (initializeCache_frame _).1
  · exact (initializeCache_frame _).2

/-- C22, counterexample to the claim as stated: the stored snapshot
`{rates: {EUR: 0.85}, lastUpdated: 0, baseCurrency: "USD"}` has `rates` and `lastUpdated`
present, yet the cache stays the initial one. -/
theorem moduleLoad_zero_timestamp :
    snapshotEpoch.rates = .object [("EUR", 85 / 100)] ∧
    snapshotEpoch.lastUpdated = some 0 ∧
    (moduleLoad (.json (.object snapshotEpoch))).cache = exchangeRateCache ∧
    exchangeRateCache ≠ .object snapshotEpoch := by
  refine ⟨rfl, rfl, ?_, ?_⟩
  · simp [moduleLoad, initializeCache, initializeTry, CacheValue.getRates,
      CacheValue.getLastUpdated, truthyTime, snapshotEpoch]
  · simp [exchangeRateCache, snapshotEpoch]

/-- C23: the registry `SUPPORTED_CURRENCIES` has exactly the 24 listed codes, each once:
a code is in the registry if and only if it is one of them, and every entry has a
non-empty name, symbol and flag. -/
theorem registry_codes :
    SUPPORTED_CURRENCIES.map Prod.fst =
      ["USD", "EUR", "GBP", "JPY", "INR", "CAD", "AUD", "CHF", "CNY", "SEK", "NZD", "MXN",
       "SGD", "HKD", "NOK", "TRY", "RUB", "BRL", "ZAR", "KRW", "THB", "PLN", "CZK", "HUF"] ∧
    SUPPORTED_CURRENCIES.length = 24 ∧
    (SUPPORTED_CURRENCIES.map Prod.fst).Nodup ∧
    (∀ c, SUPPORTED_CURRENCIES.lookup c ≠ none ↔
      c ∈ ["USD", "EUR", "GBP", "JPY", "INR", "CAD", "AUD", "CHF", "CNY", "SEK", "NZD",
           "MXN", "SGD", "HKD", "NOK", "TRY", "RUB", "BRL", "ZAR", "KRW", "THB", "PLN",
           "CZK", "HUF"]) ∧
    (∀ p ∈ SUPPORTED_CURRENCIES, p.2.name ≠ "" ∧ p.2.symbol ≠ "" ∧ p.2.flag ≠ "") := by
  have hkeys : SUPPORTED_CURRENCIES.map Prod.fst =
      ["USD", "EUR", "GBP", "JPY", "INR", "CAD", "AUD", "CHF", "CNY", "SEK", "NZD", "MXN",
       "SGD", "HKD", "NOK", "TRY", "RUB", "BRL", "ZAR", "KRW", "THB", "PLN", "CZK", "HUF"] := by
    decide
  refine ⟨hkeys, by decide, ?_, ?_, registry_entries_truthy⟩
  · rw [hkeys]
    decide
  · intro c
    rw [lookup_ne_none_iff, hkeys]

/-- C24: the default table has exactly the codes of the registry as keys, every rate is
positive and the rate of USD is 1; hence over the default table the conversion between
any two codes of the registry does not raise, and `convertCurrency` served with the
default table returns the amount divided by the rate of the source (unless the source is
USD) times the rate of the target (unless the target is USD), both rates being present
and non-zero. -/
theorem getDefaultRates_invariant :
    getDefaultRates.map Prod.fst = SUPPORTED_CURRENCIES.map Prod.fst ∧
    (∀ p ∈ getDefaultRates, 0 < p.2) ∧
    getDefaultRates.lookup "USD" = some 1 ∧
    (∀ (a : ℚ) (f t : String), SUPPORTED_CURRENCIES.lookup f ≠ none →
      SUPPORTED_CURRENCIES.lookup t ≠ none →
      (∃ rf rt, getDefaultRates.lookup f = some rf ∧ rf ≠ 0 ∧
        getDefaultRates.lookup t = some rt ∧ rt ≠ 0 ∧
        convertWith (.object getDefaultRates) a f t =
          .ok ((if f = "USD" then a else a / rf) * (if t = "USD" then 1 else rt)) ∧
        ∀ env w, (getExchangeRates env "USD" w).1 = .ok (.object getDefaultRates) →
          (convertCurrency env a f t w).1 =
            .ok ((if f = "USD" then a else a / rf) * (if t = "USD" then 1 else rt)))) := by
  refine ⟨getDefaultRates_keys, getDefaultRates_pos, by simp [getDefaultRates, List.lookup],
    ?_⟩
  intro a f t hf ht
  obtain ⟨rf, hrf, hrf0⟩ := getDefaultRates_known f hf
  obtain ⟨rt, hrt, hrt0⟩ := getDefaultRates_known t ht
  have hcw : convertWith (.object getDefaultRates) a f t =
      .ok ((if f = "USD" then a else a / rf) * (if t = "USD" then 1 else rt)) := by
    rw [convertWith_known getDefaultRates a f t (Or.inr ⟨rf, hrf, hrf0⟩)
      (Or.inr ⟨rt, hrt, hrt0⟩)]
    simp [hrf, hrt]
  refine ⟨rf, rt, hrf, hrf0, hrt, hrt0, hcw, ?_⟩
  intro env w hget
  by_cases hne : f = t
  · subst hne
    have hrr : rt = rf := by
      rw [hrf] at hrt
      exact (Option.some.inj hrt).symm
    subst hrr
    by_cases hu : f = "USD"
    · simp [convertCurrency, hu]
    · simp [convertCurrency, hu, hrf0]
  · rw [convertCurrency_value_of_rates env a f t w _ hne hget, hcw]

/-- C25: the health score is 0 with label "No Data" when `totalIncome` is 0; otherwise
it is 40 if income exceeds expenses (else 0) plus 60, 40, 20 or 0 for a savings rate of
at least 20, at least 10, at least 5, or below 5, and the label is Excellent, Good,
Fair, Poor or Critical for a score of at least 80, 60, 40, 20, or below 20. The score
is always one of 0, 20, 40, 60, 80, 100. -/
theorem getHealthScore_spec (summary : Summary) :
    (summary.totalIncome = 0 →
      (getHealthScore summary).score = 0 ∧ (getHealthScore summary).label = "No Data") ∧
    (summary.totalIncome ≠ 0 →
      (getHealthScore summary).score =
        (if summary.totalIncome > summary.totalExpenses then 40 else 0) +
        (if summary.savingsRate ≥ 20 then 60
         else if summary.savingsRate ≥ 10 then 40
         else if summary.savingsRate ≥ 5 then 20
         else 0) ∧
      (getHealthScore summary).label =
        (if (getHealthScore summary).score ≥ 80 then "Excellent"
         else if (getHealthScore summary).score ≥ 60 then "Good"
         else if (getHealthScore summary).score ≥ 40 then "Fair"
         else if (getHealthScore summary).score ≥ 20 then "Poor"
         else "Critical")) ∧
    (getHealthScore summary).score ∈ [0, 20, 40, 60, 80, 100] ∧
    (getHealthScore summary).score ≤ 100 := by
  unfold getHealthScore healthPoints
  by_cases h0 : summary.totalIncome = 0
  · simp [h0]
  · simp only [h0, if_false, false_implies, true_and, ne_eq, not_false_eq_true,
      true_implies]
    by_cases h1 : summary.totalIncome > summary.totalExpenses <;>
    by_cases h2 : summary.savingsRate ≥ 20 <;>
    by_cases h3 : summary.savingsRate ≥ 10 <;>
    by_cases h4 : summary.savingsRate ≥ 5 <;>
    simp [h1, h2, h3, h4]

/-! ## Algebra of the conversion, the display rate, the selection invariant -/

/-- C26: over one rates object served to the three calls, with the rates of the codes
`A`, `B`, `C` present and non-zero (USD needing none), converting from `A` to `B` and
the result from `B` to `C` gives the same amount as converting from `A` to `C`
directly. -/
theorem convertCurrency_path_independent (env1 env2 env3 : Env) (a : ℚ) (A B C : String)
    (w w0 : World) (R : Rates)
    (hget1 : (getExchangeRates env1 "USD" w).1 = .ok (.object R))
    (hget2 : (getExchangeRates env2 "USD" (convertCurrency env1 a A B w).2).1
      = .ok (.object R))
    (hget3 : (getExchangeRates env3 "USD" w0).1 = .ok (.object R))
    (hA : A = "USD" ∨ ∃ r, R.lookup A = some r ∧ r ≠ 0)
    (hB : B = "USD" ∨ ∃ r, R.lookup B = some r ∧ r ≠ 0)
    (hC : C = "USD" ∨ ∃ r, R.lookup C = some r ∧ r ≠ 0) :
    ∃ b c, (convertCurrency env1 a A B w).1 = .ok b ∧
      (convertCurrency env2 b B C (convertCurrency env1 a A B w).2).1 = .ok c ∧
      (convertCurrency env3 a A C w0).1 = .ok c := by
  -- the value of one conversion over `R`, whether or not the codes differ
  have hval : ∀ (env : Env) (x : ℚ) (f t : String) (v : World),
      (getExchangeRates env "USD" v).1 = .ok (.object R) →
      (f = "USD" ∨ ∃ r, R.lookup f = some r ∧ r ≠ 0) →
      (t = "USD" ∨ ∃ r, R.lookup t = some r ∧ r ≠ 0) →
      (convertCurrency env x f t v).1 =
        .ok ((if f = "USD" then x else x / (R.lookup f).getD 1) *
             (if t = "USD" then 1 else (R.lookup t).getD 1)) := by
    intro env x f t v hg hf ht
    by_cases hne : f = t
    · subst hne
      by_cases hu : f = "USD"
      · simp [convertCurrency, hu]
      · rcases hf with h | ⟨r, hr, hr0⟩
        · exact absurd h hu
        · simp [convertCurrency, hu, hr, hr0]
    · rw [convertCurrency_value_of_rates env x f t v _ hne hg, convertWith_known R x f t hf ht]
  refine ⟨(if A = "USD" then a else a / (R.lookup A).getD 1) *
      (if B = "USD" then 1 else (R.lookup B).getD 1),
    (if A = "USD" then a else a / (R.lookup A).getD 1) *
      (if C = "USD" then 1 else (R.lookup C).getD 1),
    hval env1 a A B w hget1 hA hB, ?_, hval env3 a A C w0 hget3 hA hC⟩
  rw [hval env2 _ B C _ hget2 hB hC]
  congr 1
  generalize (if A = "USD" then a else a / (R.lookup A).getD 1) = x
  generalize (if C = "USD" then (1 : ℚ) else (R.lookup C).getD 1) = y
  by_cases hb : B = "USD"
  · simp [hb]
  · rcases hB with h | ⟨r, hr, hr0⟩
    · exact absurd h hb
    · simp only [hb, if_false, hr, Option.getD_some]
      rw [mul_div_assoc, div_self hr0, mul_one]

/-- C26, instance: over the default table, 100 EUR to GBP and then to JPY equals 100 EUR
to JPY directly. -/
theorem convertCurrency_path_eur_gbp_jpy :
    ∃ b c, (convertCurrency envOffline 100 "EUR" "GBP" worldStart).1 = .ok b ∧
      (convertCurrency envOffline b "GBP" "JPY"
        (convertCurrency envOffline 100 "EUR" "GBP" worldStart).2).1 = .ok c ∧
      (convertCurrency envOffline 100 "EUR" "JPY" worldStart).1 = .ok c := by
  have hget : getExchangeRates envOffline "USD" worldStart
      = (.ok (.object getDefaultRates),
         { worldStart with calls := [.primary "USD", .fallback "USD"] }) := by
    simp [getExchangeRates, cacheValidFor, isCacheValid, CacheValue.getLastUpdated, truthyTime,
      worldStart, exchangeRateCache, envOffline, fetchExchangeRates, fetchTry,
      providerAttempt, fetchCatch]
  have hstate : (convertCurrency envOffline 100 "EUR" "GBP" worldStart).2
      = { worldStart with calls := [.primary "USD", .fallback "USD"] } := by
    rw [convertCurrency_of_rates envOffline 100 "EUR" "GBP" worldStart _ _ (by decide) hget]
  have hget2 : (getExchangeRates envOffline "USD"
      (convertCurrency envOffline 100 "EUR" "GBP" worldStart).2).1
      = .ok (.object getDefaultRates) := by
    rw [hstate]
    simp [getExchangeRates, cacheValidFor, isCacheValid, CacheValue.getLastUpdated, truthyTime,
      worldStart, exchangeRateCache, envOffline, fetchExchangeRates, fetchTry,
      providerAttempt, fetchCatch]
  exact convertCurrency_path_independent envOffline envOffline envOffline 100 "EUR" "GBP"
    "JPY" worldStart worldStart getDefaultRates (by rw [hget]) hget2 (by rw [hget])
    (Or.inr (getDefaultRates_known "EUR" (by decide)))
    (Or.inr (getDefaultRates_known "GBP" (by decide)))
    (Or.inr (getDefaultRates_known "JPY" (by decide)))

/-- C27: for distinct codes, when `rates[from]` is 0 (with `from` other than USD) or
`rates[to]` is 0 (with `to` other than USD), `convertCurrency` returns the original
amount, exactly as for a missing rate: the `try` block raises the rate-not-found error
instead of dividing by, or multiplying with, the zero rate. -/
theorem convertCurrency_zero_rate (env : Env) (a : ℚ) (f t : String) (w w1 : World)
    (R : Rates) (hne : f ≠ t)
    (hget : getExchangeRates env "USD" w = (.ok (.object R), w1))
    (hzero : (f ≠ "USD" ∧ R.lookup f = some 0) ∨ (t ≠ "USD" ∧ R.lookup t = some 0)) :
    convertCurrency env a f t w = (.ok a, w1) ∧
    ∃ code, convertWith (.object R) a f t
      = .error (.error ("Exchange rate not found for " ++ code)) := by
  have hcw : ∃ code, convertWith (.object R) a f t
      = .error (.error ("Exchange rate not found for " ++ code)) := by
    rcases hzero with ⟨hf, hz⟩ | ⟨ht, hz⟩
    · exact ⟨f, by simp [convertWith, toUsdAmount, RatesValue.get, truthyRate, hf, hz]⟩
    · cases h : toUsdAmount (.object R) a f with
      | error e =>
        have he := toUsdAmount_error R a f e h
        exact ⟨f, by simp [convertWith, h, he]⟩
      | ok usd =>
        exact ⟨t, by simp [convertWith, h, RatesValue.get, truthyRate, ht, hz]⟩
  refine ⟨?_, hcw⟩
  obtain ⟨code, hc⟩ := hcw
  rw [convertCurrency_of_rates env a f t w w1 _ hne hget, hc]

/-- C27, instance: over the snapshot `{EUR: 0}`, `convertCurrency(100, "USD", "EUR")`
is 100. -/
theorem convertCurrency_zero_rate_eur :
    convertCurrency envOffline 100 "USD" "EUR" worldZeroRate = (.ok 100, worldZeroRate) :=
  (convertCurrency_zero_rate envOffline 100 "USD" "EUR" worldZeroRate worldZeroRate
    [("EUR", 0)] (by decide) getExchangeRates_worldZeroRate
    (Or.inr ⟨by decide, by simp [List.lookup]⟩)).1

/-- C28: when a `getExchangeRates(base)` reaches the providers (the cache is not valid
for `base`) and both providers fail, the result does not depend on `base`: it is what the
`catch` block returns on that state, namely the rates of the durable snapshot, whatever
its `baseCurrency`, with that snapshot installed as the cache, and the default table
when durable storage is empty or unparseable. -/
theorem getExchangeRates_failure_any_base (env : Env) (base : String) (w : World)
    (hinvalid : cacheValidFor w.cache env.now base = .ok false)
    (hprimary : env.primary base = .failed) (hfallback : env.fallback base = .failed) :
    (getExchangeRates env base w).1 = (fetchCatch w).1 ∧
    (getExchangeRates env base w).2.cache = (fetchCatch w).2.cache ∧
    (∀ s, w.storage = .json (.object s) →
      (getExchangeRates env base w).1 = .ok s.rates ∧
      (getExchangeRates env base w).2.cache = .object s) ∧
    (w.storage = .absent ∨ w.storage = .unparseable →
      (getExchangeRates env base w).1 = .ok (.object getDefaultRates)) := by
  have hfail : (fetchTry env base w).1 = .error .axiosError := by
    simp [fetchTry, providerAttempt, hprimary, hfallback]
  obtain ⟨calls, hfe⟩ := fetchExchangeRates_of_error env base w _ hfail
  have hget : getExchangeRates env base w = fetchCatch { w with calls := calls } := by
    unfold getExchangeRates
    rw [hinvalid]
    exact hfe
  have hind := fetchCatch_calls_indep w calls
  rw [hget, hind.1, hind.2]
  refine ⟨rfl, rfl, ?_, ?_⟩
  · intro s hs
    simp [fetchCatch, hs, CacheValue.getRates]
  · rintro (hs | hs) <;> simp [fetchCatch, hs]

/-- C28, instance: both providers down, durable storage holding a USD-based snapshot;
`getExchangeRates("EUR")` returns that snapshot's rates and installs it. -/
theorem getExchangeRates_failure_eur_base :
    (getExchangeRates envOffline "EUR" worldStoredFresh).1
      = .ok (.object [("EUR", 85 / 100)]) ∧
    (getExchangeRates envOffline "EUR" worldStoredFresh).2.cache
      = .object { rates := .object [("EUR", 85 / 100)], lastUpdated := some 1000,
                  baseCurrency := some "USD" } :=
  (getExchangeRates_failure_any_base envOffline "EUR" worldStoredFresh
    (by simp [cacheValidFor, isCacheValid, CacheValue.getLastUpdated, truthyTime,
      worldStoredFresh, exchangeRateCache])
    rfl rfl).2.2.1 _ rfl

/-- Over one rates mapping held by the provider and served to the engine, for every
selected currency that is not a member name of `Object.prototype` and every amount `u`,
the display value `u * getSelectedCurrencyRate()` that `formatCurrencyFromUSD` formats
equals `convertCurrency(u, "USD", s)`; when the selection is USD or its rate is missing
or zero, both are `u`. -/
theorem display_conversion_own (host : Host) (env : Env) (st : ProviderState)
    (w : World) (R : Rates) (u : ℚ)
    (hst : st.exchangeRates = .object R)
    (hget : (getExchangeRates env "USD" w).1 = .ok (.object R))
    (hp : st.selectedCurrency ∉ objectPrototypeKeys) :
    ∃ rate : ℚ, CurrencyProvider.getSelectedCurrencyRate st = .ok (.number rate) ∧
      (convertCurrency env u "USD" st.selectedCurrency w).1 = .ok (.num (u * rate)) ∧
      CurrencyProvider.convertedAmountFromUSD st u = .ok (.num (u * rate)) ∧
      CurrencyProvider.formatCurrencyFromUSD host st (some u)
        = .ok (CurrencyProvider.formatCurrency host (some (.num (u * rate)))
            st.selectedCurrency) ∧
      (st.selectedCurrency = "USD" ∨ R.lookup st.selectedCurrency = none ∨
        R.lookup st.selectedCurrency = some 0 → u * rate = u) := by
  by_cases hu : st.selectedCurrency = "USD"
  · refine ⟨1, ?_, ?_, ?_, ?_, ?_⟩
    · simp [CurrencyProvider.getSelectedCurrencyRate, hu]
    · simp [convertCurrency, hu]
    · simp [CurrencyProvider.convertedAmountFromUSD,
        CurrencyProvider.getSelectedCurrencyRate, hu]
    · simp [CurrencyProvider.formatCurrencyFromUSD, CurrencyProvider.convertedAmountFromUSD,
        CurrencyProvider.getSelectedCurrencyRate, hu]
    · intro _
      simp
  · have hne : "USD" ≠ st.selectedCurrency := fun h => hu h.symm
    have hconv := convertCurrency_value_of_rates env u "USD" st.selectedCurrency w _ hne hget
    cases hl : R.lookup st.selectedCurrency with
    | none =>
      refine ⟨1, ?_, ?_, ?_, ?_, ?_⟩
      · simp [CurrencyProvider.getSelectedCurrencyRate, hu, hst, RatesValue.get, hl, hp,
          truthyRate]
      · rw [hconv]
        simp [convertWith, toUsdAmount, RatesValue.get, hl, hp, truthyRate, hu]
      · simp [CurrencyProvider.convertedAmountFromUSD,
          CurrencyProvider.getSelectedCurrencyRate, hu, hst, RatesValue.get, hl, hp,
          truthyRate]
      · simp [CurrencyProvider.formatCurrencyFromUSD,
          CurrencyProvider.convertedAmountFromUSD,
          CurrencyProvider.getSelectedCurrencyRate, hu, hst, RatesValue.get, hl, hp,
          truthyRate]
      · intro _
        simp
    | some r =>
      by_cases hr : r = 0
      · subst hr
        refine ⟨1, ?_, ?_, ?_, ?_, ?_⟩
        · simp [CurrencyProvider.getSelectedCurrencyRate, hu, hst, RatesValue.get, hl,
            truthyRate]
        · rw [hconv]
          simp [convertWith, toUsdAmount, RatesValue.get, hl, truthyRate, hu]
        · simp [CurrencyProvider.convertedAmountFromUSD,
            CurrencyProvider.getSelectedCurrencyRate, hu, hst, RatesValue.get, hl,
            truthyRate]
        · simp [CurrencyProvider.formatCurrencyFromUSD,
            CurrencyProvider.convertedAmountFromUSD,
            CurrencyProvider.getSelectedCurrencyRate, hu, hst, RatesValue.get, hl,
            truthyRate]
        · intro _
          simp
      · refine ⟨r, ?_, ?_, ?_, ?_, ?_⟩
        · simp [CurrencyProvider.getSelectedCurrencyRate, hu, hst, RatesValue.get, hl,
            truthyRate, hr]
        · rw [hconv]
          simp [convertWith, toUsdAmount, RatesValue.get, hl, truthyRate, hu, hr]
        · simp [CurrencyProvider.convertedAmountFromUSD,
            CurrencyProvider.getSelectedCurrencyRate, hu, hst, RatesValue.get, hl,
            truthyRate, hr]
        · simp [CurrencyProvider.formatCurrencyFromUSD,
            CurrencyProvider.convertedAmountFromUSD,
            CurrencyProvider.getSelectedCurrencyRate, hu, hst, RatesValue.get, hl,
            truthyRate, hr]
        · rintro (h | h | h)
          · exact absurd h hu
          · simp at h
          · simp only [Option.some.injEq] at h
            exact absurd h hr

/-- C29, the code at the failing input: with "constructor" selected (the selection the
first render makes from a saved "constructor") over the rates `{EUR: 0.85}`, which hold
no rate for that name, `exchangeRates["constructor"] || 1` of line 113 is the function
`Object` and not 1, so the display value of 100 USD is NaN and not 100;
`convertCurrency(100, "USD", "constructor")` over the same rates is NaN too. With EUR
selected both are 85, and with the unknown code "ZZZ" the engine returns 100. -/
theorem display_conversion_inherited_name :
    providerConstructor.selectedCurrency
      = (CurrencyProvider.mount (some "constructor")).selectedCurrency ∧
    providerConstructor.exchangeRates = .object [("EUR", 85 / 100)] ∧
    getExchangeRates envOffline "USD" worldEur
      = (.ok (.object [("EUR", 85 / 100)]), worldEur) ∧
    List.lookup providerConstructor.selectedCurrency [("EUR", (85 / 100 : ℚ))] = none ∧
    CurrencyProvider.getSelectedCurrencyRate providerConstructor
      = .ok (.inherited "constructor") ∧
    CurrencyProvider.convertedAmountFromUSD providerConstructor 100 = .ok .nan ∧
    CurrencyProvider.formatCurrencyFromUSD hostSample providerConstructor (some 100)
      = .ok (CurrencyProvider.formatCurrency hostSample (some .nan) "constructor") ∧
    convertCurrency envOffline 100 "USD" "constructor" worldEur = (.ok .nan, worldEur) ∧
    (JSNumber.nan ≠ 100) ∧
    CurrencyProvider.convertedAmountFromUSD providerEur 100 = .ok 85 ∧
    convertCurrency envOffline 100 "USD" "EUR" worldEur = (.ok 85, worldEur) ∧
    convertCurrency envOffline 100 "USD" "ZZZ" worldEur = (.ok 100, worldEur) := by
  have hget := getExchangeRates_worldEur
  refine ⟨by decide, rfl, hget, by decide, ?_, ?_, ?_, ?_, ?_, ?_, ?_, ?_⟩
  · simp [CurrencyProvider.getSelectedCurrencyRate, providerConstructor, RatesValue.get,
      List.lookup, objectPrototypeKeys, truthyRate]
  · simp [CurrencyProvider.convertedAmountFromUSD, CurrencyProvider.getSelectedCurrencyRate,
      providerConstructor, RatesValue.get, List.lookup, objectPrototypeKeys, truthyRate,
      JSNumber.times, JSNumber.ofNat_eq]
  · simp [CurrencyProvider.formatCurrencyFromUSD, CurrencyProvider.convertedAmountFromUSD,
      CurrencyProvider.getSelectedCurrencyRate, providerConstructor, RatesValue.get,
      List.lookup, objectPrototypeKeys, truthyRate, JSNumber.times, JSNumber.ofNat_eq]
  · rw [convertCurrency_of_rates envOffline 100 "USD" "constructor" worldEur worldEur _
      (by decide) hget]
    simp [convertWith, toUsdAmount, RatesValue.get, truthyRate, List.lookup,
      objectPrototypeKeys, JSNumber.times, JSNumber.ofNat_eq]
  · simp [JSNumber.ofNat_eq]
  · simp [CurrencyProvider.convertedAmountFromUSD, CurrencyProvider.getSelectedCurrencyRate,
      providerEur, RatesValue.get, List.lookup, truthyRate, JSNumber.ofNat_eq]
    norm_num
  · rw [convertCurrency_of_rates envOffline 100 "USD" "EUR" worldEur worldEur _
      (by decide) hget]
    simp [convertWith, toUsdAmount, RatesValue.get, truthyRate, List.lookup,
      JSNumber.ofNat_eq]
    norm_num
  · rw [convertCurrency_of_rates envOffline 100 "USD" "ZZZ" worldEur worldEur _
      (by decide) hget]
    simp [convertWith, toUsdAmount, RatesValue.get, truthyRate, List.lookup,
      objectPrototypeKeys, JSNumber.ofNat_eq]

/-- A selection that is a code of the registry or a member name of `Object.prototype`
stays one under a preference load or a `changeCurrency(c)`. -/
theorem step_selection_truthy (st : ProviderState) (ev : SelectionEvent)
    (h : (registryGet st.selectedCurrency).truthy = true) :
    (registryGet (CurrencyProvider.step st ev).selectedCurrency).truthy = true := by
  cases ev with
  | load =>
    simp only [CurrencyProvider.step, CurrencyProvider.loadPreference]
    cases hs : st.savedCurrency with
    | none => exact h
    | some c =>
      simp only []
      by_cases hc : c ≠ "" ∧ (registryGet c).truthy = true
      · rw [if_pos hc]
        unfold CurrencyProvider.setSelectedCurrency
        by_cases hcs : c = st.selectedCurrency
        · rw [if_pos hcs]
          exact h
        · rw [if_neg hcs]
          exact hc.2
      · rw [if_neg hc]
        exact h
  | change c =>
    simp only [CurrencyProvider.step, CurrencyProvider.changeCurrency]
    by_cases hc : (registryGet c).truthy = true
    · rw [if_pos hc]
      unfold CurrencyProvider.setSelectedCurrency
      by_cases hcs : c = st.selectedCurrency
      · rw [if_pos hcs]
        exact h
      · rw [if_neg hcs]
        exact hc
    · rw [if_neg hc]
      exact h

/-- In every state reached from the initial state by a sequence of preference loads and
`changeCurrency` calls, the selected currency is a code of the registry or a member
name of `Object.prototype`: those are the names `SUPPORTED_CURRENCIES[code]` is truthy
for. -/
theorem selection_truthy (saved : Option String) (events : List SelectionEvent) :
    (registryGet
      (CurrencyProvider.run events
        (CurrencyProvider.initialState saved)).selectedCurrency).truthy = true := by
  have hgen : ∀ (evs : List SelectionEvent) (st : ProviderState),
      (registryGet st.selectedCurrency).truthy = true →
      (registryGet (CurrencyProvider.run evs st).selectedCurrency).truthy = true := by
    intro evs
    induction evs with
    | nil => intro st h; exact h
    | cons ev rest ih =>
      intro st h
      exact ih _ (step_selection_truthy st ev h)
  have husd : (registryGet "USD").truthy = true := by decide
  exact hgen events _ husd

/-- C30, the code at the failing input: from the initial state, one
`changeCurrency("constructor")`, or one preference load with "constructor" saved in
durable storage, reaches a state whose selected currency is "constructor", which is not
a code of the registry; so does the first render with "constructor" saved. The unknown
code "ZZZ" is refused on both paths. -/
theorem selection_inherited_name :
    SUPPORTED_CURRENCIES.lookup "constructor" = none ∧
    (CurrencyProvider.run [.change "constructor"]
      (CurrencyProvider.initialState none)).selectedCurrency = "constructor" ∧
    (CurrencyProvider.run [.load]
      (CurrencyProvider.initialState (some "constructor"))).selectedCurrency
        = "constructor" ∧
    (CurrencyProvider.run [] (CurrencyProvider.mount (some "constructor"))).selectedCurrency
      = "constructor" ∧
    (CurrencyProvider.run [.change "ZZZ"]
      (CurrencyProvider.initialState none)).selectedCurrency = "USD" ∧
    (CurrencyProvider.run [.load]
      (CurrencyProvider.initialState (some "ZZZ"))).selectedCurrency = "USD" := by
  decide

end CurrencyService
